import Mathlib

/-
  Verification of the flux continuous-deployment core against its
  natural-language specification.

  The Go sources are shallowly embedded as Lean definitions:
  * pure functions become Lean functions;
  * external collaborators (the Kubernetes client, the YAML library, the
    git repository, the registry, the event log, the filesystem) become
    explicit function parameters or explicit state values;
  * Go `error` values become `Option String` (`none` = nil error) or
    `Except String`;
  * Go maps become association lists with overwrite-on-insert semantics;
  * effects (applier invocations, channel sends, published responses) are
    returned as explicit traces.
-/

set_option autoImplicit false

namespace Flux

/-- Model of `flux.ServiceID`: in Go it is the string `namespace/name`;
`MakeServiceID` concatenates the two halves and `Components` splits them.
We keep the two halves, which is the information content of a well-formed ID. -/
structure ServiceID where
  nspace : String
  name : String
  deriving DecidableEq, Repr

/-- Printing a ServiceID, as the Go string value `namespace/name`. -/
def ServiceID.str (id : ServiceID) : String :=
  id.nspace ++ "/" ++ id.name

/-- Model of `flux.ServiceIDSet` (a `map[ServiceID]struct{}` in Go):
a list of IDs queried only through `Contains`. -/
abbrev ServiceIDSet := List ServiceID

/-- Model of `ServiceIDSet.Contains`. -/
def sidsetContains (s : ServiceIDSet) (id : ServiceID) : Bool :=
  s.contains id

/-- Model of the `flux.ReleaseStatus` constants used by the release engine. -/
inductive ReleaseStatus where
  | success
  | failed
  | skipped
  | ignored
  | pending
  deriving DecidableEq, Repr

/-- Model of one element of `flux.ServiceResult.PerContainerUpdate`. -/
structure ContainerUpdate where
  container : String
  from_ : String
  to_ : String
  deriving DecidableEq, Repr

/-- Model of `flux.ServiceResult`: status, error string and per-container
updates (the Go zero value of the slice is the empty list). -/
structure ServiceResult where
  status : ReleaseStatus
  error : String := ""
  perContainerUpdate : List ContainerUpdate := []
  deriving DecidableEq, Repr

/-- Go map assignment `m[k] = v` on an association list: overwrite the
entry for `k` if present (keys stay unique when built only by inserts). -/
def mapInsert {α β : Type} [DecidableEq α] (m : List (α × β)) (k : α) (v : β) :
    List (α × β) :=
  (m.filter (fun p => p.1 ≠ k)) ++ [(k, v)]

/-- Go map lookup `v, ok := m[k]`. -/
def mapLookup {α β : Type} [DecidableEq α] (m : List (α × β)) (k : α) : Option β :=
  (m.find? (fun p => p.1 = k)).map (·.2)

/-- Go map deletion `delete(m, k)`. -/
def mapErase {α β : Type} [DecidableEq α] (m : List (α × β)) (k : α) :
    List (α × β) :=
  m.filter (fun p => p.1 ≠ k)

/-- Model of `flux.ReleaseResult` (`map[ServiceID]ServiceResult`), as an
association list whose keys are kept unique by `rrInsert`. -/
abbrev ReleaseResult := List (ServiceID × ServiceResult)

/-- Go map assignment `m[k] = v`: overwrite the entry for `k` if present. -/
def rrInsert (m : ReleaseResult) (k : ServiceID) (v : ServiceResult) : ReleaseResult :=
  mapInsert m k v

/-- Go map lookup `m[k]` (presence view). -/
def rrLookup (m : ReleaseResult) (k : ServiceID) : Option ServiceResult :=
  mapLookup m k

/-- Model of `ReleaseResult.ServiceIDs` — the key set of the map. -/
def rrKeys (m : ReleaseResult) : List ServiceID :=
  m.map (·.1)

/-- Model of `flux.ReleaseSpec` as used by the daemon facade and release
engine; the release-engine claims treated here never inspect the selector
fields, which are carried opaquely. -/
structure ReleaseSpec where
  serviceSpecs : List String := []
  imageSpec : String := ""
  kind : String := ""
  excludes : List ServiceID := []
  deriving DecidableEq, Repr

end Flux

namespace DFacade

/-
  The daemon facade (`package daemon`, file concatenated into
  src/deploy/standalone/flux-deployment.yaml): `UpdateImages` and
  `logRelease`.
-/

open Flux

/-- Model of `flux.LogLevel` values used by `logRelease`. -/
inductive LogLevel where
  | info
  | error
  deriving DecidableEq, Repr

/-- Model of `flux.Release` as constructed by `Daemon.UpdateImages`
(timestamps are abstract naturals). -/
structure Release where
  startedAt : Nat
  endedAt : Nat
  done : Bool
  status : ReleaseStatus
  spec : ReleaseSpec
  result : ReleaseResult
  deriving DecidableEq, Repr

/-- Model of `flux.ReleaseEventMetadata`. -/
structure EventMetadata where
  release : Release
  error : String
  deriving DecidableEq, Repr

/-- Model of `flux.Event` as constructed by `logRelease`
(`Type: flux.EventRelease` is carried as the tag string "release"). -/
structure Event where
  serviceIDs : List ServiceID
  eventType : String
  startedAt : Nat
  endedAt : Nat
  logLevel : LogLevel
  metadata : EventMetadata
  deriving DecidableEq, Repr

/-- The event `logRelease` records: ids from the result's key set, the
release timestamps, log level error exactly when the release failed, and
the release itself (with the error message) as metadata. -/
def releaseEvent (executeErr : Option String) (release : Release) : Event :=
  let errorMessage := match executeErr with
    | some e => e
    | none => ""
  let logLevel := match executeErr with
    | some _ => LogLevel.error
    | none => LogLevel.info
  { serviceIDs := rrKeys release.result
    eventType := "release"
    startedAt := release.startedAt
    endedAt := release.endedAt
    logLevel := logLevel
    metadata := { release := release, error := errorMessage } }

/-- Model of `Daemon.logRelease`.  `logEvent` stands for the effectful
`d.LogEvent` (its error outcome); `executeErr` is the release engine's
error.  Go's `errors.Wrap(err, "logging event")` produces the message
`"logging event: " ++ err`. -/
def logRelease (logEvent : Event → Option String) (executeErr : Option String)
    (release : Release) : Option String :=
  let err := logEvent (releaseEvent executeErr release)
  match err, executeErr with
  | some e, none => some ("logging event: " ++ e)
  | _, _ => executeErr

/-- The `flux.Release` record `UpdateImages` constructs: status failed
exactly when the release engine returned an error; `started` and `ended`
are the two time observations. -/
def builtRelease (started ended : Nat) (spec : ReleaseSpec)
    (results : ReleaseResult) (err : Option String) : Release :=
  { startedAt := started
    endedAt := ended
    done := true
    status := match err with
      | some _ => ReleaseStatus.failed
      | none => ReleaseStatus.success
    spec := spec
    result := results }

/-- Model of `Daemon.UpdateImages` proper: run the release engine, build
the `flux.Release` record, and return the results together with
`logRelease`'s error. -/
def UpdateImages (releaseF : ReleaseSpec → ReleaseResult × Option String)
    (logEvent : Event → Option String) (started ended : Nat)
    (spec : ReleaseSpec) : ReleaseResult × Option String :=
  let r := releaseF spec
  let results := r.1
  let err := r.2
  (results, logRelease logEvent err (builtRelease started ended spec results err))

end DFacade

namespace Platform

/-- Model of `platform.Container` (name plus image reference string). -/
structure Container where
  name : String
  image : String
  deriving DecidableEq, Repr

/-- Model of `platform.ContainersOrExcuse`: either the containers of the
matched pod controller, or an excuse for why they could not be enumerated. -/
structure ContainersOrExcuse where
  excuse : String := ""
  containers : List Container := []
  deriving DecidableEq, Repr

/-- Model of `platform.Service` as constructed by the cluster adapter. -/
structure Service where
  id : Flux.ServiceID
  ip : String := ""
  metadata : List (String × String) := []
  status : String := ""
  containers : ContainersOrExcuse := {}
  deriving DecidableEq, Repr

end Platform

namespace Rel

/-
  The release engine's selection and write-back phases
  (`package release`, src/unnamed/part_000).
-/

open Flux

/-- Model of `release.ServiceUpdate`; `service` is `none` until the update
is correlated with a running service (the Go zero value of the pointer). -/
structure ServiceUpdate where
  serviceID : ServiceID
  manifestPath : String
  manifestBytes : String
  service : Option Platform.Service := none
  deriving DecidableEq, Repr

/-- State threaded through the first loop of `SelectServices`:
the candidate map `updateMap`, the candidate id list `ids`, and the
`results` map being filled in. -/
structure SelectPhaseA where
  updateMap : List (ServiceID × ServiceUpdate)
  ids : List ServiceID
  results : ReleaseResult
  deriving Repr

/-- The include-filter condition `only == nil || only.Contains(id)` of the
first loop of `SelectServices`. -/
def onlyOkB (included : Option (List ServiceID)) (s : ServiceID) : Bool :=
  match included with
  | none => true
  | some l => sidsetContains l s

/-- One iteration of the first loop of `SelectServices` for the defined
service `s`: services not passing the include filter are omitted; excluded
services get skipped/"excluded", locked ones skipped/"locked", the rest
become pending candidates (entered into both `ids` and `updateMap`). -/
def selectStep (included : Option (List ServiceID)) (locked excluded : ServiceIDSet)
    (st : SelectPhaseA) (s : ServiceUpdate) : SelectPhaseA :=
  if onlyOkB included s.serviceID then
    if sidsetContains excluded s.serviceID then
      { st with results := (rrInsert st.results s.serviceID { status := ReleaseStatus.skipped, error := "excluded" }) }
    else if sidsetContains locked s.serviceID then
      { st with results := (rrInsert st.results s.serviceID { status := ReleaseStatus.skipped, error := "locked" }) }
    else
      { updateMap := mapInsert st.updateMap s.serviceID s
        ids := st.ids ++ [s.serviceID]
        results := (rrInsert st.results s.serviceID { status := ReleaseStatus.pending }) }
  else st

/-- First loop of `SelectServices` over the defined services. -/
def selectPhaseA (included : Option (List ServiceID)) (locked excluded : ServiceIDSet)
    (defined : List ServiceUpdate) (results0 : ReleaseResult) : SelectPhaseA :=
  defined.foldl (selectStep included locked excluded)
    { updateMap := [], ids := [], results := results0 }

/-- Second loop of `SelectServices`: correlate the services returned by the
cluster with the candidate map.  A returned service with no candidate entry
dereferences a nil pointer in Go (`update.Service = service`), modelled as
`none`. -/
def correlate : List Platform.Service → List (ServiceID × ServiceUpdate) →
    List ServiceUpdate → Option (List ServiceUpdate × List (ServiceID × ServiceUpdate))
  | [], um, upds => some (upds, um)
  | svc :: rest, um, upds =>
    match mapLookup um svc.id with
    | none => none
    | some u => correlate rest (mapErase um svc.id)
        (upds ++ [{ u with service := some svc }])

/-- Third loop of `SelectServices`: every candidate left in the map (defined
but not returned by the cluster) is recorded as skipped when an explicit
include list was given, ignored otherwise, with error "not in running
system".  (Go iterates the map in unspecified order; the resulting map does
not depend on the order since keys are distinct.) -/
def leftoverResult (included : Option (List ServiceID)) : ServiceResult :=
  { status := match included with
      | some _ => ReleaseStatus.skipped
      | none => ReleaseStatus.ignored
    error := "not in running system" }

/-- Third loop proper of `SelectServices`. -/
def markLeftover (included : Option (List ServiceID))
    (um : List (ServiceID × ServiceUpdate)) (results : ReleaseResult) : ReleaseResult :=
  um.foldl (fun res p => rrInsert res p.1 (leftoverResult included)) results

/-- Model of `ReleaseContext.SelectServices`.  `findDefined` stands for
`rc.FindDefinedServices()` and `someServices` for `rc.Cluster.SomeServices`;
`results0` is the results map passed in (and mutated) by the caller.
The outer `Option` is `none` exactly on the Go nil-pointer panic. -/
def SelectServices (findDefined : Except String (List ServiceUpdate))
    (someServices : List ServiceID → Except String (List Platform.Service))
    (included : Option (List ServiceID)) (locked excluded : ServiceIDSet)
    (results0 : ReleaseResult)
    : Option (Except String (List ServiceUpdate × ReleaseResult)) :=
  match findDefined with
  | .error e => some (.error e)
  | .ok defined =>
    let st := selectPhaseA included locked excluded defined results0
    match someServices st.ids with
    | .error e => some (.error e)
    | .ok services =>
      match correlate services st.updateMap [] with
      | none => none
      | some (updates, leftover) =>
        some (.ok (updates, markLeftover included leftover st.results))

/-- Model of `ReleaseContext.FindDefinedServices`.  The argument list stands
for the map returned by `rc.Cluster.FindDefinedServices(rc.RepoPath())`
(service id to the manifest paths defining it; Go iterates it in
unspecified order, modelled by the list order); `readFile` stands for
`ioutil.ReadFile`. -/
def FindDefinedServices (readFile : String → Except String String) :
    List (ServiceID × List String) → Except String (List ServiceUpdate)
  | [] => .ok []
  | (id, paths) :: rest =>
    match paths with
    | [p] =>
      match readFile p with
      | .error e => .error e
      | .ok bytes =>
        match FindDefinedServices readFile rest with
        | .error e => .error e
        | .ok l => .ok ({ serviceID := id, manifestPath := p, manifestBytes := bytes } :: l)
    | _ => .error ("multiple resource files found for service " ++ id.str
        ++ ": " ++ String.intercalate ", " paths)

/-- Model of a file's stat-visible attributes: mode bits and contents. -/
structure FileInfo where
  mode : Nat
  contents : String
  deriving DecidableEq, Repr

/-- Model of the working-copy filesystem: paths to file attributes. -/
abbrev FS := List (String × FileInfo)

/-- Model of `os.Stat`: `none` when the path does not exist. -/
def statFile (fs : FS) (p : String) : Option FileInfo :=
  mapLookup fs p

/-- Model of `ioutil.WriteFile(p, bytes, perm)`: an existing file is
truncated and rewritten, keeping its mode (the permission argument only
applies when the file is created). -/
def fsWrite (fs : FS) (p : String) (bytes : String) (perm : Nat) : FS :=
  match mapLookup fs p with
  | some fi => mapInsert fs p { fi with contents := bytes }
  | none => mapInsert fs p { mode := perm, contents := bytes }

/-- Model of `release.writeUpdates`: for each update, stat the manifest
path (propagating a failure), then write the manifest bytes with the mode
just observed. -/
def writeUpdates (fs : FS) : List ServiceUpdate → Except String FS
  | [] => .ok fs
  | u :: rest =>
    match statFile fs u.manifestPath with
    | none => .error ("stat " ++ u.manifestPath ++ ": no such file or directory")
    | some fi => writeUpdates (fsWrite fs u.manifestPath u.manifestBytes fi.mode) rest

end Rel

namespace Kube

/-
  The Kubernetes cluster adapter (`package kubernetes`,
  src/unnamed/part_004): addon filtering, service enumeration, export,
  and the serialised sync.
-/

open Flux

/-- Go label lookup `labels[k]` on a `map[string]string`: absent keys give
the empty string. -/
def getLabel (labels : List (String × String)) (k : String) : String :=
  match mapLookup labels k with
  | some v => v
  | none => ""

/-- Model of the `ObjectMeta` fields the adapter reads (`GetNamespace`,
`GetLabels`, name, generation, and the metadata copied by
`metadataForService`).  The Go field `Namespace` is spelled `nspace`. -/
structure ObjectMeta where
  name : String := ""
  nspace : String := ""
  labels : List (String × String) := []
  generation : Int := 0
  creationTimestamp : String := ""
  resourceVersion : String := ""
  uid : String := ""
  deriving DecidableEq, Repr

/-- Model of `isAddon`: all three resource kinds implement
`GetNamespace`/`GetLabels` through their `ObjectMeta`, so the Go interface
argument is modelled by the metadata itself.  A resource is an addon when
it lives in `kube-system` and carries one of the three addon labels. -/
def isAddon (m : ObjectMeta) : Bool :=
  if m.nspace ≠ "kube-system" then false
  else if getLabel m.labels "kubernetes.io/cluster-service" == "true"
      || getLabel m.labels "addonmanager.kubernetes.io/mode" == "EnsureExists"
      || getLabel m.labels "addonmanager.kubernetes.io/mode" == "Reconcile" then true
  else false

/-- Model of `v1.Service` (the fields the adapter reads: metadata, the
spec's selector, cluster IP and type). -/
structure V1Service where
  metadata : ObjectMeta
  selector : List (String × String) := []
  clusterIP : String := ""
  svcType : String := ""
  deriving DecidableEq, Repr

/-- Model of a controller's pod template (labels and containers). -/
structure PodTemplate where
  labels : List (String × String) := []
  containers : List Platform.Container := []
  deriving DecidableEq, Repr

/-- Model of `extensions/v1beta1.Deployment` (metadata, spec replicas and
template, and the status fields read by `status()`). -/
structure Deployment where
  metadata : ObjectMeta
  replicas : Int := 0
  template : PodTemplate := {}
  observedGeneration : Int := 0
  updatedReplicas : Int := 0
  deriving DecidableEq, Repr

/-- Model of `v1.ReplicationController` (metadata, spec template, and the
status fields read by `status()`). -/
structure ReplicationController where
  metadata : ObjectMeta
  template : PodTemplate := {}
  observedGeneration : Int := 0
  readyReplicas : Int := 0
  statusReplicas : Int := 0
  deriving DecidableEq, Repr

/-- Model of `podController`: either a replication controller, a
deployment, or neither. -/
structure PodController where
  rc : Option ReplicationController := none
  deployment : Option Deployment := none
  deriving DecidableEq, Repr

/-- Model of `podController.templateContainers`. -/
def PodController.templateContainers (p : PodController) : List Platform.Container :=
  match p.deployment with
  | some d => d.template.containers
  | none =>
    match p.rc with
    | some r => r.template.containers
    | none => []

/-- Model of `podController.templateLabels` (`nil` becomes the empty map). -/
def PodController.templateLabels (p : PodController) : List (String × String) :=
  match p.deployment with
  | some d => d.template.labels
  | none =>
    match p.rc with
    | some r => r.template.labels
    | none => []

/-- Model of `podController.matchedBy`: every key/value pair of the
service's selector must be carried by the controller's pod-template labels. -/
def PodController.matchedBy (p : PodController) (selector : List (String × String)) : Bool :=
  selector.all (fun kv => getLabel p.templateLabels kv.1 == kv.2)

/-- Model of `podController.status`. -/
def PodController.statusStr (p : PodController) : String :=
  match p.deployment with
  | some d =>
    if d.observedGeneration ≥ d.metadata.generation then
      if d.updatedReplicas == d.replicas then "ready"
      else toString d.updatedReplicas ++ " out of " ++ toString d.replicas ++ " updated"
    else "updating"
  | none =>
    match p.rc with
    | some r =>
      if r.observedGeneration ≥ r.metadata.generation then
        if r.readyReplicas == r.statusReplicas then "ready"
        else toString r.readyReplicas ++ " out of " ++ toString r.statusReplicas ++ " ready"
      else "updating"
    | none => "unknown"

/-- Selector-matching errors (`platform.ErrEmptySelector` etc.; that
package's error strings are not under src/, the texts below are
placeholders — no claim depends on them). -/
inductive SelectorErr where
  | emptySelector
  | noMatching
  | multipleMatching
  deriving DecidableEq, Repr

/-- Excuse string attached to the service for a selector-matching error. -/
def SelectorErr.msg : SelectorErr → String
  | .emptySelector => "empty selector"
  | .noMatching => "no matching replication controller or deployment"
  | .multipleMatching => "multiple matching replication controllers or deployments"

/-- Model of `matchController`: an empty selector is an error; otherwise
exactly one matching controller is required. -/
def matchController (service : V1Service) (controllers : List PodController) :
    Except SelectorErr PodController :=
  if service.selector.isEmpty then .error SelectorErr.emptySelector
  else
    match controllers.filter (fun c => c.matchedBy service.selector) with
    | [c] => .ok c
    | [] => .error SelectorErr.noMatching
    | _ => .error SelectorErr.multipleMatching

/-- Model of `metadataForService`. -/
def metadataForService (s : V1Service) : List (String × String) :=
  [("created_at", s.metadata.creationTimestamp),
   ("resource_version", s.metadata.resourceVersion),
   ("uid", s.metadata.uid),
   ("type", s.svcType)]

/-- Model of `Cluster.makeService`: a selector-matching error becomes the
excuse and status `unknown`; otherwise the controller's containers and
rollout status are attached. -/
def makeService (ns : String) (service : V1Service) (controllers : List PodController) :
    Platform.Service :=
  let base : Platform.Service :=
    { id := { nspace := ns, name := service.metadata.name }
      ip := service.clusterIP
      metadata := metadataForService service }
  match matchController service controllers with
  | .error e => { base with containers := { excuse := e.msg }, status := "unknown" }
  | .ok pc =>
    { base with containers := { containers := pc.templateContainers }
                status := pc.statusStr }

/-- Model of the live cluster contents read through the Kubernetes client
(the external collaborator): the namespace list and the services,
deployments and replication controllers it would return. -/
structure ClusterState where
  namespaces : List String := []
  services : List V1Service := []
  deployments : List Deployment := []
  rcs : List ReplicationController := []

/-- Namespace-scoped service listing of the client. -/
def servicesIn (st : ClusterState) (ns : String) : List V1Service :=
  st.services.filter (fun s => s.metadata.nspace == ns)

/-- Namespace-scoped deployment listing of the client. -/
def deploymentsIn (st : ClusterState) (ns : String) : List Deployment :=
  st.deployments.filter (fun d => d.metadata.nspace == ns)

/-- Namespace-scoped replication-controller listing of the client. -/
def rcsIn (st : ClusterState) (ns : String) : List ReplicationController :=
  st.rcs.filter (fun r => r.metadata.nspace == ns)

/-- Model of `services.Get(name)` in a namespace. -/
def getService (st : ClusterState) (ns name : String) : Option V1Service :=
  (st.services.filter (fun s => s.metadata.nspace == ns && s.metadata.name == name)).head?

/-- Model of `Cluster.podControllersInNamespace`: non-addon deployments
first, then non-addon replication controllers. -/
def podControllersInNamespace (st : ClusterState) (ns : String) : List PodController :=
  ((deploymentsIn st ns).filter (fun d => !(isAddon d.metadata))).map
      (fun d => { deployment := some d })
    ++ ((rcsIn st ns).filter (fun r => !(isAddon r.metadata))).map
      (fun r => { rc := some r })

/-- Model of `Cluster.SomeServices`: requested ids are grouped by
namespace (Go builds a map and iterates it in unspecified order; the model
keeps first-seen namespace order, which no claim depends on), missing
services are skipped, addons are skipped. -/
def nsAppend (m : List (String × List String)) (ns name : String) :
    List (String × List String) :=
  if m.any (fun p => p.1 == ns) then
    m.map (fun p => if p.1 == ns then (p.1, p.2 ++ [name]) else p)
  else m ++ [(ns, [name])]

/-- Grouping loop at the top of `SomeServices`. -/
def groupByNamespace (ids : List ServiceID) : List (String × List String) :=
  ids.foldl (fun m id => nsAppend m id.nspace id.name) []

/-- Model of `Cluster.SomeServices` (success path of the client calls). -/
def SomeServices (st : ClusterState) (ids : List ServiceID) : List Platform.Service :=
  (groupByNamespace ids).flatMap (fun p =>
    let controllers := podControllersInNamespace st p.1
    p.2.filterMap (fun name =>
      match getService st p.1 name with
      | none => none
      | some svc =>
        if isAddon svc.metadata then none
        else some (makeService p.1 svc controllers)))

/-- Model of `Cluster.AllServices`: an empty namespace argument means all
namespaces of the cluster; addons are filtered out. -/
def AllServices (st : ClusterState) (namespaceArg : String) : List Platform.Service :=
  let namespaces := if namespaceArg == "" then st.namespaces else [namespaceArg]
  namespaces.flatMap (fun ns =>
    let controllers := podControllersInNamespace st ns
    (servicesIn st ns).filterMap (fun svc =>
      if isAddon svc.metadata then none
      else some (makeService ns svc controllers)))

/-- One YAML document appended by `Cluster.Export` via `appendYAML`
(namespace docs get apiVersion v1/kind Namespace, deployments
extensions-v1beta1/Deployment, replication controllers
v1/ReplicationController, services v1/Service). -/
inductive ExportEntry where
  | namespaceDoc (name : String)
  | deploymentDoc (d : Deployment)
  | rcDoc (r : ReplicationController)
  | serviceDoc (s : V1Service)
  deriving DecidableEq, Repr

/-- Model of `Cluster.Export` (success path): per namespace, the namespace
document, then its non-addon deployments, replication controllers, and
services, in the order the code appends them. -/
def Export (st : ClusterState) : List ExportEntry :=
  st.namespaces.flatMap (fun ns =>
    ExportEntry.namespaceDoc ns
      :: ((deploymentsIn st ns).filter (fun d => !(isAddon d.metadata))).map ExportEntry.deploymentDoc
      ++ ((rcsIn st ns).filter (fun r => !(isAddon r.metadata))).map ExportEntry.rcDoc
      ++ ((servicesIn st ns).filter (fun s => !(isAddon s.metadata))).map ExportEntry.serviceDoc)

/-- Model of `apiObject` — the minimal object `definitionObj` decodes from
manifest bytes (apiVersion, kind, metadata name/namespace; note it carries
no labels, so the addon labels of a manifest are not even visible here). -/
structure ApiObject where
  bytes : String
  version : String := ""
  kind : String := ""
  name : String := ""
  nspace : String := ""
  deriving DecidableEq, Repr

/-- Model of `platform.SyncAction`: a resource id plus optional delete and
apply manifests (`""` models the empty byte slice). -/
structure SyncAction where
  resourceID : String
  delete : String := ""
  apply : String := ""
  deriving DecidableEq, Repr

/-- Model of `platform.SyncDef`. -/
structure SyncDef where
  actions : List SyncAction
  deriving DecidableEq, Repr

/-- Model of `platform.SyncError` (`map[ResourceID]error`). -/
abbrev SyncErrMap := List (String × String)

/-- An applier invocation performed during a sync (the effect trace of
`c.applier.Delete` / `c.applier.Apply`). -/
inductive SyncEvent where
  | deleteCall (obj : ApiObject)
  | applyCall (obj : ApiObject)
  deriving DecidableEq, Repr

/-- Model of the body of the sync loop for one action.  `parse` stands for
`definitionObj` (the YAML library), `applyF`/`deleteF` for the applier
(`none` = success).  Returns the error recorded for this action (if any)
and the applier invocations it performed; a delete failure skips the
action's apply (`continue`). -/
def runAction (parse : String → Except String ApiObject)
    (applyF deleteF : ApiObject → Option String) (a : SyncAction) :
    Option String × List SyncEvent :=
  let del :=
    if a.delete ≠ "" then
      match parse a.delete with
      | .error e => (some e, ([] : List SyncEvent))
      | .ok obj =>
        match deleteF obj with
        | some e => (some e, [SyncEvent.deleteCall obj])
        | none => (none, [SyncEvent.deleteCall obj])
    else (none, [])
  match del.1 with
  | some e => (some e, del.2)
  | none =>
    if a.apply ≠ "" then
      match parse a.apply with
      | .error e => (some e, del.2)
      | .ok obj =>
        match applyF obj with
        | some e => (some e, del.2 ++ [SyncEvent.applyCall obj])
        | none => (none, del.2 ++ [SyncEvent.applyCall obj])
    else (none, del.2)

/-- The action loop of the closure `Cluster.Sync` enqueues: actions are
processed in order, a failed action records `errs[action.ResourceID] = err`
and the loop continues with the next action. -/
def syncLoop (parse : String → Except String ApiObject)
    (applyF deleteF : ApiObject → Option String) :
    List SyncAction → SyncErrMap → List SyncEvent → SyncErrMap × List SyncEvent
  | [], errs, tr => (errs, tr)
  | a :: rest, errs, tr =>
    let r := runAction parse applyF deleteF a
    match r.1 with
    | some e => syncLoop parse applyF deleteF rest (Flux.mapInsert errs a.resourceID e) (tr ++ r.2)
    | none => syncLoop parse applyF deleteF rest errs (tr ++ r.2)

/-- The `errs` map built by the closure: one entry per failed action,
keyed by its resource id. -/
def syncErrs (parse : String → Except String ApiObject)
    (applyF deleteF : ApiObject → Option String) (acts : List SyncAction) : SyncErrMap :=
  (syncLoop parse applyF deleteF acts [] []).1

/-- The applier invocations the closure performs, in order. -/
def syncTrace (parse : String → Except String ApiObject)
    (applyF deleteF : ApiObject → Option String) (acts : List SyncAction) :
    List SyncEvent :=
  (syncLoop parse applyF deleteF acts [] []).2

/-- The values the closure sends on the unbuffered reply channel `errc`,
in order: the code sends the error map when it is non-empty, and then
unconditionally also sends nil (`some` = the `SyncError` map, `none` =
nil).  `Cluster.Sync` itself receives exactly one value from `errc`. -/
def syncReplies (parse : String → Except String ApiObject)
    (applyF deleteF : ApiObject → Option String) (acts : List SyncAction) :
    List (Option SyncErrMap) :=
  let errs := syncErrs parse applyF deleteF acts
  if errs.isEmpty then [none] else [some errs, none]

/-- The value `Cluster.Sync` returns: the first value sent on `errc`. -/
def syncReturn (parse : String → Except String ApiObject)
    (applyF deleteF : ApiObject → Option String) (acts : List SyncAction) :
    Option SyncErrMap :=
  match syncReplies parse applyF deleteF acts with
  | r :: _ => r
  | [] => none

end Kube

namespace Bus

/-
  The NATS message bus (src/platform/rpc/nats/bus.go): the per-request
  dispatch closure `processRequest` of `Subscribe`, and the subscription
  loop's reaction to its three channel events.
-/

/-- Method subject suffixes, from the const block of bus.go. -/
def methodKick : String := ".Platform.Kick"

/-- Subject suffix for Ping. -/
def methodPing : String := ".Platform.Ping"

/-- Subject suffix for Version. -/
def methodVersion : String := ".Platform.Version"

/-- Subject suffix for Export. -/
def methodExport : String := ".Platform.Export"

/-- Subject suffix for ListServices. -/
def methodListServices : String := ".Platform.ListServices"

/-- Subject suffix for ListImages. -/
def methodListImages : String := ".Platform.ListImages"

/-- Subject suffix for UpdateImages. -/
def methodUpdateImages : String := ".Platform.UpdateImages"

/-- Subject suffix for SyncCluster. -/
def methodSyncCluster : String := ".Platform.SyncCluster"

/-- Subject suffix for SyncStatus. -/
def methodSyncStatus : String := ".Platform.SyncStatus"

/-- Model of `strings.HasSuffix` on the character lists of the two
strings (Go's HasSuffix is byte-wise; on the subjects involved the two
coincide).  Defined by character-list comparison so that concrete
instances evaluate inside the kernel. -/
def goHasSuffix (s sfx : String) : Bool :=
  decide (sfx.data = s.data.drop (s.data.length - sfx.data.length))

/-- A Go error as handled by the bus: message plus whether it is a
`platform.FatalError`. -/
structure BusErr where
  msg : String
  fatal : Bool
  deriving DecidableEq, Repr

/-- Model of the `ErrorResponse` trailer carried by every response. -/
structure ErrorResponse where
  error : String := ""
  fatal : Bool := false
  deriving DecidableEq, Repr

/-- Model of `makeErrorResponse`. -/
def makeErrorResponse : Option BusErr → ErrorResponse
  | none => {}
  | some e => { error := e.msg, fatal := e.fatal }

/-- An incoming `nats.Msg`: subject, payload data, reply subject. -/
structure Request where
  subject : String
  data : String
  reply : String
  deriving DecidableEq, Repr

/-- Outcomes of the external calls a dispatch can make: the decoder
(`encoder.Decode`) and the remote `platform.Platform` methods.  `none`
means success; only the error component matters for the routing logic. -/
structure RemoteOutcomes where
  decodeErr : Option String := none
  pingErr : Option BusErr := none
  versionErr : Option BusErr := none
  exportErr : Option BusErr := none
  listServicesErr : Option BusErr := none
  listImagesErr : Option BusErr := none
  updateImagesErr : Option BusErr := none
  syncClusterErr : Option BusErr := none
  syncStatusErr : Option BusErr := none

/-- One response published on the reply subject (the method tag stands for
the response envelope type; payload fields are not modelled, the trailer
is). -/
structure Published where
  replySubject : String
  method : String
  trailer : ErrorResponse
  deriving DecidableEq, Repr

/-- Everything a single `processRequest` invocation does: the responses it
publishes and the errors it sends on the internal channel `errc` (the send
is non-blocking; the first fatal error wins at the channel). -/
structure ProcessResult where
  published : List Published
  errcSends : List BusErr
  deriving DecidableEq, Repr

/-- Go's decode-then-call sequencing: a decode error pre-empts the remote
call (and is never a `platform.FatalError`). -/
def afterDecode (dec : Option String) (callErr : Option BusErr) : Option BusErr :=
  match dec with
  | some e => some { msg := e, fatal := false }
  | none => callErr

/-- Model of the `processRequest` closure in `Subscribe`: dispatch on the
subject suffix, in source order.  A kick whose ID differs from the
session's own `myID` produces the fatal error "Kicked by new subscriber
id" and publishes nothing; other methods publish exactly one response
with `makeErrorResponse`.  Only errors classified fatal are forwarded to
`errc`.  (The final dispatch case compares against an identifier that the
source never defines; the const block's SyncStatus suffix is used here.) -/
def processRequest (outc : RemoteOutcomes) (myID : String) (req : Request) :
    ProcessResult :=
  let finish := fun (method : String) (publishes : Bool) (err : Option BusErr) =>
    ({ published :=
        if publishes then [{ replySubject := req.reply, method := method, trailer := makeErrorResponse err }]
        else []
       errcSends := match err with
        | some e => if e.fatal then [e] else []
        | none => [] } : ProcessResult)
  if goHasSuffix req.subject methodKick then
    (if req.data ≠ myID then
      finish "Kick" false (some { msg := "Kicked by new subscriber " ++ req.data, fatal := true })
    else
      finish "Kick" false none)
  else if goHasSuffix req.subject methodPing then
    finish "Ping" true (afterDecode outc.decodeErr outc.pingErr)
  else if goHasSuffix req.subject methodVersion then
    finish "Version" true outc.versionErr
  else if goHasSuffix req.subject methodExport then
    finish "Export" true (afterDecode outc.decodeErr outc.exportErr)
  else if goHasSuffix req.subject methodListServices then
    finish "ListServices" true (afterDecode outc.decodeErr outc.listServicesErr)
  else if goHasSuffix req.subject methodListImages then
    finish "ListImages" true (afterDecode outc.decodeErr outc.listImagesErr)
  else if goHasSuffix req.subject methodUpdateImages then
    finish "UpdateImages" true (afterDecode outc.decodeErr outc.updateImagesErr)
  else if goHasSuffix req.subject methodSyncCluster then
    finish "SyncCluster" true (afterDecode outc.decodeErr outc.syncClusterErr)
  else if goHasSuffix req.subject methodSyncStatus then
    finish "SyncStatus" true (afterDecode outc.decodeErr outc.syncStatusErr)
  else
    finish "unknown" false (some { msg := "unknown message: " ++ req.subject, fatal := false })

/-- The three events the subscription goroutine can select on. -/
inductive LoopEvent where
  | errE (e : BusErr)
  | requestE
  | timerE
  deriving DecidableEq, Repr

/-- What one iteration of the subscription goroutine does for an event. -/
structure LoopOutcome where
  unsubscribed : Bool
  closedRequests : Bool
  doneSent : Option (Option BusErr)
  returns : Bool
  deriving DecidableEq, Repr

/-- Model of the select loop in `Subscribe`: an error received on `errc`
unsubscribes, closes the request channel, delivers the error on `done`
and returns; a request is dispatched on its own goroutine; the max-age
timer tears down cleanly with `done <- nil`. -/
def loopStep : LoopEvent → LoopOutcome
  | .errE e =>
    { unsubscribed := true, closedRequests := true, doneSent := some (some e), returns := true }
  | .requestE =>
    { unsubscribed := false, closedRequests := false, doneSent := none, returns := false }
  | .timerE =>
    { unsubscribed := true, closedRequests := true, doneSent := some none, returns := true }

end Bus

namespace PDaemon

/-
  The platform daemon (src/platform/daemon.go): `ListServices` and its
  helpers.
-/

open Flux

/-- Model of `flux.ImageID` (registry/repository/tag triple); the claims
never inspect parses, so the parse function is carried as a parameter. -/
structure ImageID where
  registry : String := ""
  repo : String := ""
  tag : String := ""
  deriving DecidableEq, Repr

/-- Model of `flux.ImageDescription`. -/
structure ImageDescription where
  id : ImageID
  createdAt : Nat := 0
  deriving DecidableEq, Repr

/-- Model of `flux.Container` (name, current image, available images). -/
structure FluxContainer where
  name : String
  current : ImageDescription
  available : List ImageDescription := []
  deriving DecidableEq, Repr

/-- Model of `flux.ServiceStatus` as built by `ListServices`. -/
structure ServiceStatus where
  id : ServiceID
  containers : List FluxContainer
  status : String
  deriving DecidableEq, Repr

/-- Model of `containers2containers`: each platform container becomes a
flux container whose current image is the parse of its image string (the
parse error is discarded by the code). -/
def containers2containers (parse : String → ImageID) (cs : List Platform.Container) :
    List FluxContainer :=
  cs.map (fun c => { name := c.name, current := { id := parse c.image } })

/-- Model of `Service.ContainersOrNil`: the containers list of the
containers-or-excuse variant (nil, i.e. empty, when only an excuse was
recorded). -/
def containersOrNil (s : Platform.Service) : List Platform.Container :=
  s.containers.containers

/-- Model of `Daemon.getAllServicesExcept`; `allServices` stands for
`d.Cluster.AllServices` with its error outcome. -/
def getAllServicesExcept
    (allServices : String → ServiceIDSet → List Platform.Service × Option String)
    (maybeNamespace : String) (ignored : ServiceIDSet) :
    List Platform.Service × Option String :=
  allServices maybeNamespace ignored

/-- Model of `Daemon.getAllServices`. -/
def getAllServices
    (allServices : String → ServiceIDSet → List Platform.Service × Option String)
    (maybeNamespace : String) : List Platform.Service × Option String :=
  getAllServicesExcept allServices maybeNamespace []

/-- Model of `Daemon.ListServices`: the error returned by
`getAllServices` is bound but never consulted; the statuses built from
whatever services were returned are delivered with a nil error. -/
def ListServices
    (allServices : String → ServiceIDSet → List Platform.Service × Option String)
    (parse : String → ImageID) (namespaceArg : String) :
    List ServiceStatus × Option String :=
  let r := getAllServices allServices namespaceArg
  let services := r.1
  (services.map (fun s =>
    { id := s.id
      containers := containers2containers parse (containersOrNil s)
      status := s.status }), none)

end PDaemon

namespace Flux

/-
  Helper lemmas about the Go-map embedding.
-/

theorem find?_key_filter_ne {α β : Type} [DecidableEq α] (m : List (α × β)) (k : α) :
    (m.filter (fun p => p.1 ≠ k)).find? (fun p => p.1 = k) = none := by
  rw [List.find?_eq_none]
  intro x hx
  simp only [List.mem_filter, decide_not] at hx
  simp_all

theorem mapLookup_insert_self {α β : Type} [DecidableEq α] (m : List (α × β)) (k : α) (v : β) :
    mapLookup (mapInsert m k v) k = some v := by
  unfold mapInsert mapLookup
  rw [List.find?_append, find?_key_filter_ne]
  simp

theorem mapLookup_insert_ne {α β : Type} [DecidableEq α] (m : List (α × β)) (k k' : α) (v : β)
    (h : k' ≠ k) : mapLookup (mapInsert m k v) k' = mapLookup m k' := by
  unfold mapInsert mapLookup
  rw [List.find?_append]
  have h1 : (m.filter (fun p => p.1 ≠ k)).find? (fun p => p.1 = k')
      = m.find? (fun p => p.1 = k') := by
    rw [List.find?_filter]
    congr 1
    funext p
    by_cases hp : p.1 = k'
    · simp [hp, h]
    · simp [hp]
  have h2 : ([(k, v)].find? (fun p => p.1 = k')) = none := by
    simp [List.find?_cons, Ne.symm h]
  rw [h1, h2]
  simp

theorem mapLookup_erase_ne {α β : Type} [DecidableEq α] (m : List (α × β)) (k k' : α)
    (h : k' ≠ k) : mapLookup (mapErase m k) k' = mapLookup m k' := by
  unfold mapErase mapLookup
  have h1 : (m.filter (fun p => p.1 ≠ k)).find? (fun p => p.1 = k')
      = m.find? (fun p => p.1 = k') := by
    rw [List.find?_filter]
    congr 1
    funext p
    by_cases hp : p.1 = k'
    · simp [hp, h]
    · simp [hp]
  rw [h1]

theorem mapLookup_erase_self {α β : Type} [DecidableEq α] (m : List (α × β)) (k : α) :
    mapLookup (mapErase m k) k = none := by
  unfold mapErase mapLookup
  rw [find?_key_filter_ne]
  rfl

theorem mapLookup_nil {α β : Type} [DecidableEq α] (k : α) :
    mapLookup ([] : List (α × β)) k = none := rfl

theorem mapLookup_isSome_insert {α β : Type} [DecidableEq α] (m : List (α × β)) (k k' : α)
    (v : β) (h : (mapLookup m k').isSome) : (mapLookup (mapInsert m k v) k').isSome := by
  by_cases hk : k' = k
  · subst hk
    rw [mapLookup_insert_self]
    rfl
  · rw [mapLookup_insert_ne m k k' v hk]
    exact h

end Flux

/-- C1 counterexample: a concrete release where the engine succeeds but
recording the event fails.  `UpdateImages` returns the wrapped logging
error instead of success, refuting the claim that the logging error is
dropped when the release succeeded. -/
theorem C1_counterexample :
    (DFacade.UpdateImages (fun _ => ([], none)) (fun _ => some "boom") 0 1 {}).2
        = some "logging event: boom" ∧
    (DFacade.UpdateImages (fun _ => ([], none)) (fun _ => some "boom") 0 1 {}).2 ≠ none := by
  have h : (DFacade.UpdateImages (fun _ => ([], none)) (fun _ => some "boom") 0 1 {}).2
      = some "logging event: boom" := rfl
  exact ⟨h, by rw [h]; exact Option.some_ne_none _⟩

/-- C1 (amended): `UpdateImages` returns the release engine's results; if
the engine returned an error, that error is returned regardless of the
logging outcome; if the engine succeeded, the call returns the outcome of
event logging — nil on success and the logging error wrapped as
"logging event: err" on failure (the logging error is NOT dropped). -/
theorem C1_updateImages_error_contract
    (releaseF : Flux.ReleaseSpec → Flux.ReleaseResult × Option String)
    (logEvent : DFacade.Event → Option String) (started ended : Nat)
    (spec : Flux.ReleaseSpec) :
    (DFacade.UpdateImages releaseF logEvent started ended spec).1 = (releaseF spec).1 ∧
    (DFacade.UpdateImages releaseF logEvent started ended spec).2 =
      (match (releaseF spec).2 with
       | some e => some e
       | none =>
         (logEvent (DFacade.releaseEvent none
             (DFacade.builtRelease started ended spec (releaseF spec).1 none))).map
           (fun e => "logging event: " ++ e)) := by
  refine ⟨rfl, ?_⟩
  unfold DFacade.UpdateImages DFacade.logRelease
  cases h : (releaseF spec).2 with
  | none =>
    simp only [h]
    cases hl : logEvent (DFacade.releaseEvent none
        (DFacade.builtRelease started ended spec (releaseF spec).1 none)) <;>
      simp [hl, h]
  | some e =>
    simp only [h]
    cases hl : logEvent (DFacade.releaseEvent (some e)
        (DFacade.builtRelease started ended spec (releaseF spec).1 (some e))) <;>
      simp [hl, h]

/-- C10: for every cluster outcome and namespace, the platform daemon's
`ListServices` returns a nil error — the error from `getAllServices` is
discarded — and delivers the statuses built from whatever services were
returned. -/
theorem C10_listServices_discards_error
    (allServices : String → Flux.ServiceIDSet → List Platform.Service × Option String)
    (parse : String → PDaemon.ImageID) (namespaceArg : String) :
    (PDaemon.ListServices allServices parse namespaceArg).2 = none ∧
    (PDaemon.ListServices allServices parse namespaceArg).1 =
      (PDaemon.getAllServices allServices namespaceArg).1.map (fun s =>
        { id := s.id
          containers := PDaemon.containers2containers parse (PDaemon.containersOrNil s)
          status := s.status }) :=
  ⟨rfl, rfl⟩

/-- C8: a kick request whose id differs from the session's own yields the
fatal error "Kicked by new subscriber id" (and publishes no response); the
subscription loop, on receiving that error, unsubscribes and delivers the
error on the done channel.  A kick carrying the session's own id produces
no error and no response. -/
theorem C8_kick_arbitration (outc : Bus.RemoteOutcomes) (myID : String)
    (req : Bus.Request) (hsub : Bus.goHasSuffix req.subject Bus.methodKick = true) :
    (req.data ≠ myID →
      Bus.processRequest outc myID req =
        { published := []
          errcSends := [{ msg := "Kicked by new subscriber " ++ req.data, fatal := true }] } ∧
      Bus.loopStep (Bus.LoopEvent.errE
          { msg := "Kicked by new subscriber " ++ req.data, fatal := true }) =
        { unsubscribed := true
          closedRequests := true
          doneSent := some (some { msg := "Kicked by new subscriber " ++ req.data, fatal := true })
          returns := true }) ∧
    (req.data = myID →
      Bus.processRequest outc myID req = { published := [], errcSends := [] }) := by
  constructor
  · intro hne
    refine ⟨?_, rfl⟩
    unfold Bus.processRequest
    rw [hsub]
    simp [hne]
  · intro heq
    unfold Bus.processRequest
    rw [hsub]
    simp [heq]

/-- C8 witness: concrete kick handling at a foreign id and at the
session's own id. -/
theorem C8_kick_arbitration_witness :
    (Bus.goHasSuffix "inst.Platform.Kick" Bus.methodKick = true) ∧
    (Bus.processRequest {} "me"
        { subject := "inst.Platform.Kick", data := "other", reply := "r" }).errcSends
      = [{ msg := "Kicked by new subscriber other", fatal := true }] ∧
    Bus.processRequest {} "me"
        { subject := "inst.Platform.Kick", data := "me", reply := "r" }
      = { published := [], errcSends := [] } := by
  refine ⟨by decide, ?_, ?_⟩
  · have h := (C8_kick_arbitration {} "me"
        { subject := "inst.Platform.Kick", data := "other", reply := "r" } (by decide)).1
      (by decide)
    rw [h.1]
    rfl
  · exact (C8_kick_arbitration {} "me"
      { subject := "inst.Platform.Kick", data := "me", reply := "r" } (by decide)).2 rfl

/-- A parse function for concrete sync batches: every byte blob parses to
the minimal object carrying those bytes. -/
def plainParse : String → Except String Kube.ApiObject :=
  fun b => Except.ok { bytes := b }

/-- An applier that rejects exactly the manifest "bad". -/
def rejectBad : Kube.ApiObject → Option String :=
  fun o => if o.bytes = "bad" then some "rejected" else none

/-- A three-action batch whose middle action fails to apply. -/
def actsC3 : List Kube.SyncAction :=
  [{ resourceID := "ns/a", apply := "good1" },
   { resourceID := "ns/b", apply := "bad" },
   { resourceID := "ns/c", apply := "good2" }]

/-- C3 (code bug): on a batch containing a failing action, the closure
`Cluster.Sync` enqueues sends TWO values on the unbuffered reply channel
`errc` — the error map and then nil.  `Sync` receives exactly one value,
so the second send blocks the single consumer goroutine (`Cluster.loop`)
forever and no subsequent submission is ever dequeued, contradicting the
one-reply-per-submission contract. -/
theorem C3_sync_closure_double_reply :
    Kube.syncReplies plainParse rejectBad (fun _ => none) actsC3
      = [some [("ns/b", "rejected")], none] ∧
    (Kube.syncReplies plainParse rejectBad (fun _ => none) actsC3).length ≠ 1 := by
  refine ⟨by decide, by decide⟩

/-- Sequential sync loop: the trace of applier invocations is exactly the
concatenation of every action's own invocations — no action's failure
suppresses the processing of later actions. -/
theorem syncLoop_trace_eq (parse : String → Except String Kube.ApiObject)
    (applyF deleteF : Kube.ApiObject → Option String) (acts : List Kube.SyncAction)
    (errs0 : Kube.SyncErrMap) (tr0 : List Kube.SyncEvent) :
    (Kube.syncLoop parse applyF deleteF acts errs0 tr0).2
      = tr0 ++ acts.flatMap (fun a => (Kube.runAction parse applyF deleteF a).2) := by
  induction acts generalizing errs0 tr0 with
  | nil => simp [Kube.syncLoop]
  | cons a rest ih =>
    unfold Kube.syncLoop
    cases h : (Kube.runAction parse applyF deleteF a).1 <;>
      simp [h, ih, List.flatMap_cons, List.append_assoc]

/-- Sequential sync loop: the error map collects exactly one entry per
failed action, keyed by its resource id, provided the accumulator carries
no entry for the ids still to come. -/
theorem syncLoop_errs_eq (parse : String → Except String Kube.ApiObject)
    (applyF deleteF : Kube.ApiObject → Option String) (acts : List Kube.SyncAction)
    (errs0 : Kube.SyncErrMap) (tr0 : List Kube.SyncEvent)
    (hfresh : ∀ a ∈ acts, ∀ p ∈ errs0, p.1 ≠ a.resourceID)
    (hnd : (acts.map (fun a => a.resourceID)).Nodup) :
    (Kube.syncLoop parse applyF deleteF acts errs0 tr0).1
      = errs0 ++ acts.filterMap (fun a =>
          ((Kube.runAction parse applyF deleteF a).1).map (fun e => (a.resourceID, e))) := by
  induction acts generalizing errs0 tr0 with
  | nil => simp [Kube.syncLoop]
  | cons a rest ih =>
    unfold Kube.syncLoop
    have hnd' : (rest.map (fun a => a.resourceID)).Nodup := by
      simpa using hnd.of_cons
    cases h : (Kube.runAction parse applyF deleteF a).1 with
    | none =>
      have hfresh' : ∀ b ∈ rest, ∀ p ∈ errs0, p.1 ≠ b.resourceID :=
        fun b hb p hp => hfresh b (List.mem_cons_of_mem a hb) p hp
      simp [h, ih errs0 (tr0 ++ (Kube.runAction parse applyF deleteF a).2) hfresh' hnd']
    | some e =>
      have hins : Flux.mapInsert errs0 a.resourceID e = errs0 ++ [(a.resourceID, e)] := by
        unfold Flux.mapInsert
        congr 1
        rw [List.filter_eq_self]
        intro p hp
        simpa using hfresh a (List.mem_cons_self a rest) p hp
      have hcons : (∀ x ∈ rest, ¬ x.resourceID = a.resourceID) ∧
          (rest.map (fun b => b.resourceID)).Nodup := by simpa using hnd
      have hfresh' : ∀ b ∈ rest, ∀ p ∈ Flux.mapInsert errs0 a.resourceID e,
          p.1 ≠ b.resourceID := by
        intro b hb p hp
        rw [hins] at hp
        rcases List.mem_append.1 hp with hp | hp
        · exact hfresh b (List.mem_cons_of_mem a hb) p hp
        · have hpa : p = (a.resourceID, e) := by simpa using hp
          subst hpa
          intro hcontra
          exact hcons.1 b hb hcontra.symm
      have hrec := ih (Flux.mapInsert errs0 a.resourceID e)
        (tr0 ++ (Kube.runAction parse applyF deleteF a).2) hfresh' hnd'
      simp only [h, List.filterMap_cons, Option.map_some]
      rw [hrec, hins]
      simp

/-- C7: an individual action's failure does not abort the batch — the
applier invocations are each action's own, concatenated — and the closure's
error map (which `Sync` returns when non-empty) has exactly one entry,
keyed by resource id, for each failed action. -/
theorem C7_sync_partial_failure (parse : String → Except String Kube.ApiObject)
    (applyF deleteF : Kube.ApiObject → Option String) (acts : List Kube.SyncAction)
    (hnd : (acts.map (fun a => a.resourceID)).Nodup) :
    Kube.syncErrs parse applyF deleteF acts
      = acts.filterMap (fun a =>
          ((Kube.runAction parse applyF deleteF a).1).map (fun e => (a.resourceID, e))) ∧
    Kube.syncTrace parse applyF deleteF acts
      = acts.flatMap (fun a => (Kube.runAction parse applyF deleteF a).2) ∧
    Kube.syncReturn parse applyF deleteF acts
      = (if Kube.syncErrs parse applyF deleteF acts = [] then none
         else some (Kube.syncErrs parse applyF deleteF acts)) := by
  refine ⟨?_, ?_, ?_⟩
  · unfold Kube.syncErrs
    rw [syncLoop_errs_eq parse applyF deleteF acts [] [] (by intro a _ p hp; cases hp) hnd]
    simp
  · unfold Kube.syncTrace
    rw [syncLoop_trace_eq]
    simp
  · unfold Kube.syncReturn Kube.syncReplies
    by_cases h : Kube.syncErrs parse applyF deleteF acts = []
    · simp [h]
    · simp [h, List.isEmpty_iff]

/-- A three-action batch with distinct resource ids whose middle action
fails. -/
def actsC7 : List Kube.SyncAction :=
  [{ resourceID := "ns/p", apply := "ok1" },
   { resourceID := "ns/q", apply := "bad" },
   { resourceID := "ns/r", apply := "ok2" }]

/-- C7 witness: on the concrete batch the error map has exactly the failed
action's entry, the other two actions are still applied, and `Sync`
returns the map. -/
theorem C7_sync_partial_failure_witness :
    (actsC7.map (fun a => a.resourceID)).Nodup ∧
    Kube.syncErrs plainParse rejectBad (fun _ => none) actsC7 = [("ns/q", "rejected")] ∧
    Kube.syncTrace plainParse rejectBad (fun _ => none) actsC7
      = [Kube.SyncEvent.applyCall { bytes := "ok1" },
         Kube.SyncEvent.applyCall { bytes := "bad" },
         Kube.SyncEvent.applyCall { bytes := "ok2" }] ∧
    Kube.syncReturn plainParse rejectBad (fun _ => none) actsC7
      = some [("ns/q", "rejected")] := by
  have h := C7_sync_partial_failure plainParse rejectBad (fun _ => none) actsC7 (by decide)
  refine ⟨by decide, ?_, ?_, ?_⟩
  · rw [h.1]
    decide
  · rw [h.2.1]
    decide
  · rw [h.2.2]
    rw [h.1]
    decide

/-- C9: when `writeUpdates` succeeds on updates with distinct manifest
paths, every update's path ends up holding exactly the update's manifest
bytes under the mode observed by the pre-write stat (the pre-release
mode), and every other path is untouched — no other attribute choice is
made. -/
theorem C9_writeUpdates_preserves_mode (fs fs' : Rel.FS) (updates : List Rel.ServiceUpdate)
    (hnd : (updates.map (fun u => u.manifestPath)).Nodup)
    (hok : Rel.writeUpdates fs updates = .ok fs') :
    (∀ u ∈ updates, ∃ fi, Rel.statFile fs u.manifestPath = some fi ∧
        Rel.statFile fs' u.manifestPath
          = some { mode := fi.mode, contents := u.manifestBytes }) ∧
    (∀ p : String, (∀ u ∈ updates, u.manifestPath ≠ p) →
        Rel.statFile fs' p = Rel.statFile fs p) := by
  induction updates generalizing fs with
  | nil =>
    simp only [Rel.writeUpdates] at hok
    cases hok
    exact ⟨fun u hu => absurd hu (List.not_mem_nil u), fun p _ => rfl⟩
  | cons u rest ih =>
    have hcons : (∀ v ∈ rest, ¬ v.manifestPath = u.manifestPath) ∧
        (rest.map (fun v => v.manifestPath)).Nodup := by simpa using hnd
    unfold Rel.writeUpdates at hok
    cases hstat : Rel.statFile fs u.manifestPath with
    | none =>
      rw [hstat] at hok
      cases hok
    | some fi =>
      rw [hstat] at hok
      have hrest := ih (Rel.fsWrite fs u.manifestPath u.manifestBytes fi.mode)
        hcons.2 hok
      have hwrite : Rel.fsWrite fs u.manifestPath u.manifestBytes fi.mode
          = Flux.mapInsert fs u.manifestPath { fi with contents := u.manifestBytes } := by
        unfold Rel.fsWrite
        unfold Rel.statFile at hstat
        rw [hstat]
      constructor
      · intro v hv
        rcases List.mem_cons.1 hv with hv | hv
        · subst hv
          refine ⟨fi, hstat, ?_⟩
          rw [hrest.2 v.manifestPath (fun w hw => hcons.1 w hw), hwrite]
          unfold Rel.statFile
          rw [Flux.mapLookup_insert_self]
        · obtain ⟨fi', hfi', hfs'⟩ := hrest.1 v hv
          refine ⟨fi', ?_, hfs'⟩
          rw [← hfi', hwrite]
          unfold Rel.statFile
          rw [Flux.mapLookup_insert_ne]
          exact hcons.1 v hv
      · intro p hp
        rw [hrest.2 p (fun w hw => hp w (List.mem_cons_of_mem u hw)), hwrite]
        unfold Rel.statFile
        rw [Flux.mapLookup_insert_ne]
        exact (hp u (List.mem_cons_self u rest)).symm

/-- A two-file working copy for the write-back witness. -/
def fsC9 : Rel.FS :=
  [("p1", { mode := 420, contents := "old1" }), ("p2", { mode := 384, contents := "old2" })]

/-- The two rewritten updates of the write-back witness. -/
def updatesC9 : List Rel.ServiceUpdate :=
  [{ serviceID := { nspace := "a", name := "x" }, manifestPath := "p1", manifestBytes := "new1" },
   { serviceID := { nspace := "a", name := "y" }, manifestPath := "p2", manifestBytes := "new2" }]

/-- The working copy after the write-back of the witness. -/
def fsC9' : Rel.FS :=
  [("p1", { mode := 420, contents := "new1" }), ("p2", { mode := 384, contents := "new2" })]

/-- C9 witness: the concrete write-back succeeds and leaves each manifest
with the new bytes under its old mode. -/
theorem C9_writeUpdates_preserves_mode_witness :
    ((updatesC9.map (fun u => u.manifestPath)).Nodup ∧
      Rel.writeUpdates fsC9 updatesC9 = .ok fsC9') ∧
    (∀ u ∈ updatesC9, ∃ fi, Rel.statFile fsC9 u.manifestPath = some fi ∧
        Rel.statFile fsC9' u.manifestPath
          = some { mode := fi.mode, contents := u.manifestBytes }) := by
  refine ⟨⟨by decide, by rfl⟩, ?_⟩
  exact (C9_writeUpdates_preserves_mode fsC9 fsC9' updatesC9 (by decide) (by rfl)).1

/-- C6: if every service has at least one manifest path and reads succeed,
then (a) whenever some service has two or more manifest files,
`FindDefinedServices` fails with the error naming such a service and its
paths, and (b) whenever every service maps to exactly one path, it returns
one ServiceUpdate per service carrying that file's path and bytes. -/
theorem C6_findDefinedServices (readFile : String → Except String String)
    (bytesOf : String → String) (services : List (Flux.ServiceID × List String))
    (hne : ∀ e ∈ services, e.2 ≠ [])
    (hread : ∀ p : String, readFile p = .ok (bytesOf p)) :
    ((∃ e ∈ services, 2 ≤ e.2.length) →
      ∃ e ∈ services, 2 ≤ e.2.length ∧
        Rel.FindDefinedServices readFile services
          = .error ("multiple resource files found for service " ++ e.1.str
              ++ ": " ++ String.intercalate ", " e.2)) ∧
    ((∀ e ∈ services, ∃ p, e.2 = [p]) →
      Rel.FindDefinedServices readFile services
        = .ok (services.map (fun e =>
            { serviceID := e.1
              manifestPath := e.2.headD ""
              manifestBytes := bytesOf (e.2.headD "") }))) := by
  constructor
  · intro hdup
    induction services with
    | nil => simp at hdup
    | cons e rest ih =>
      obtain ⟨id, paths⟩ := e
      rcases paths with _ | ⟨p, _ | ⟨q, more⟩⟩
      · exact (hne (id, []) (List.mem_cons_self _ _) rfl).elim
      · have hdup' : ∃ e ∈ rest, 2 ≤ e.2.length := by
          rcases hdup with ⟨e', he', hlen⟩
          rcases List.mem_cons.1 he' with h1 | h1
          · rw [h1] at hlen
            simp at hlen
          · exact ⟨e', h1, hlen⟩
        have hne' : ∀ e ∈ rest, e.2 ≠ [] :=
          fun e hmem => hne e (List.mem_cons_of_mem _ hmem)
        obtain ⟨e', he', hlen', herr'⟩ := ih hne' hdup'
        refine ⟨e', List.mem_cons_of_mem _ he', hlen', ?_⟩
        simp [Rel.FindDefinedServices, hread, herr']
      · refine ⟨(id, p :: q :: more), List.mem_cons_self _ _, by simp, ?_⟩
        simp [Rel.FindDefinedServices]
  · intro hsingle
    induction services with
    | nil => rfl
    | cons e rest ih =>
      obtain ⟨id, paths⟩ := e
      obtain ⟨p, hp⟩ := hsingle (id, paths) (List.mem_cons_self _ _)
      simp only at hp
      subst hp
      have hsingle' : ∀ e ∈ rest, ∃ p, e.2 = [p] :=
        fun e hmem => hsingle e (List.mem_cons_of_mem _ hmem)
      have hne' : ∀ e ∈ rest, e.2 ≠ [] :=
        fun e hmem => hne e (List.mem_cons_of_mem _ hmem)
      simp [Rel.FindDefinedServices, hread, ih hne' hsingle']

/-- A working copy in which one service is claimed by two manifest files. -/
def servicesC6 : List (Flux.ServiceID × List String) :=
  [({ nspace := "a", name := "x" }, ["p1", "p2"])]

/-- C6 witness: the concrete duplicate working copy makes planning fail
with the error naming the service. -/
theorem C6_findDefinedServices_witness :
    ((∀ e ∈ servicesC6, e.2 ≠ []) ∧ (∃ e ∈ servicesC6, 2 ≤ e.2.length)) ∧
    (∃ e ∈ servicesC6, 2 ≤ e.2.length ∧
      Rel.FindDefinedServices (fun p => .ok p) servicesC6
        = .error ("multiple resource files found for service " ++ e.1.str
            ++ ": " ++ String.intercalate ", " e.2)) := by
  refine ⟨⟨by decide, ⟨({ nspace := "a", name := "x" }, ["p1", "p2"]), by decide, by decide⟩⟩, ?_⟩
  exact (C6_findDefinedServices (fun p => .ok p) (fun p => p) servicesC6
      (by decide) (fun p => rfl)).1
    ⟨({ nspace := "a", name := "x" }, ["p1", "p2"]), by decide, by decide⟩

namespace Flux

theorem mapLookup_erase_sub {α β : Type} [DecidableEq α] (m : List (α × β)) (k0 k : α) (v : β)
    (h : mapLookup (mapErase m k0) k = some v) : mapLookup m k = some v := by
  by_cases hk : k = k0
  · subst hk
    rw [mapLookup_erase_self] at h
    cases h
  · rwa [mapLookup_erase_ne _ _ _ hk] at h

theorem mapLookup_insert_isSome_iff {α β : Type} [DecidableEq α] (m : List (α × β))
    (k s : α) (v : β) :
    (mapLookup (mapInsert m k v) s).isSome ↔ (mapLookup m s).isSome ∨ s = k := by
  by_cases h : s = k
  · subst h
    rw [mapLookup_insert_self]
    simp
  · rw [mapLookup_insert_ne _ _ _ _ h]
    simp [h]

end Flux

namespace Rel

open Flux

theorem selectStep_mem_ids (included : Option (List ServiceID)) (locked excluded : ServiceIDSet)
    (st : SelectPhaseA) (u : ServiceUpdate) (s : ServiceID) :
    s ∈ (selectStep included locked excluded st u).ids ↔
      s ∈ st.ids ∨ (s = u.serviceID ∧ onlyOkB included u.serviceID = true ∧
        sidsetContains excluded u.serviceID = false ∧
        sidsetContains locked u.serviceID = false) := by
  unfold selectStep
  by_cases h1 : onlyOkB included u.serviceID
  · by_cases h2 : sidsetContains excluded u.serviceID
    · simp [h1, h2]
    · by_cases h3 : sidsetContains locked u.serviceID
      · simp [h1, h2, h3]
      · simp [h1, h2, h3, List.mem_append]
  · simp [h1]

theorem selectStep_map_lookup (included : Option (List ServiceID)) (locked excluded : ServiceIDSet)
    (st : SelectPhaseA) (u : ServiceUpdate) (s : ServiceID) :
    mapLookup (selectStep included locked excluded st u).updateMap s =
      (if s = u.serviceID ∧ onlyOkB included u.serviceID = true ∧
          sidsetContains excluded u.serviceID = false ∧
          sidsetContains locked u.serviceID = false
       then some u else mapLookup st.updateMap s) := by
  unfold selectStep
  by_cases h1 : onlyOkB included u.serviceID
  · by_cases h2 : sidsetContains excluded u.serviceID
    · simp [h1, h2]
    · by_cases h3 : sidsetContains locked u.serviceID
      · simp [h1, h2, h3]
      · by_cases hs : s = u.serviceID
        · subst hs
          simp [h1, h2, h3, mapLookup_insert_self]
        · simp [h1, h2, h3, hs, mapLookup_insert_ne _ _ _ _ hs]
  · simp [h1]

theorem selectStep_results_isSome (included : Option (List ServiceID))
    (locked excluded : ServiceIDSet) (st : SelectPhaseA) (u : ServiceUpdate) (s : ServiceID) :
    (rrLookup (selectStep included locked excluded st u).results s).isSome ↔
      (rrLookup st.results s).isSome ∨
        (s = u.serviceID ∧ onlyOkB included u.serviceID = true) := by
  unfold selectStep
  by_cases h1 : onlyOkB included u.serviceID
  · by_cases h2 : sidsetContains excluded u.serviceID
    · simp only [h1, h2, if_true]
      rw [show (rrLookup (rrInsert st.results u.serviceID
          { status := ReleaseStatus.skipped, error := "excluded" }) s).isSome
        ↔ (rrLookup st.results s).isSome ∨ s = u.serviceID from
        mapLookup_insert_isSome_iff _ _ _ _]
      tauto
    · by_cases h3 : sidsetContains locked u.serviceID
      · simp only [h1, h2, h3, if_true, if_false, Bool.false_eq_true]
        rw [show (rrLookup (rrInsert st.results u.serviceID
            { status := ReleaseStatus.skipped, error := "locked" }) s).isSome
          ↔ (rrLookup st.results s).isSome ∨ s = u.serviceID from
          mapLookup_insert_isSome_iff _ _ _ _]
        tauto
      · simp only [h1, h2, h3, if_true, if_false, Bool.false_eq_true]
        rw [show (rrLookup (rrInsert st.results u.serviceID
            { status := ReleaseStatus.pending }) s).isSome
          ↔ (rrLookup st.results s).isSome ∨ s = u.serviceID from
          mapLookup_insert_isSome_iff _ _ _ _]
        tauto
  · simp [h1]

end Rel

namespace Rel

open Flux

theorem selectFold_mem_ids (included : Option (List ServiceID)) (locked excluded : ServiceIDSet)
    (l : List ServiceUpdate) (st0 : SelectPhaseA) (s : ServiceID)
    (hs : s ∈ (l.foldl (selectStep included locked excluded) st0).ids) :
    s ∈ st0.ids ∨ (onlyOkB included s = true ∧ sidsetContains excluded s = false ∧
      sidsetContains locked s = false ∧ ∃ u ∈ l, u.serviceID = s) := by
  induction l generalizing st0 with
  | nil => exact Or.inl hs
  | cons u rest ih =>
    rcases ih (selectStep included locked excluded st0 u) hs with h | h
    · rcases (selectStep_mem_ids included locked excluded st0 u s).1 h with h' | h'
      · exact Or.inl h'
      · obtain ⟨heq, ho, he, hl⟩ := h'
        subst heq
        exact Or.inr ⟨ho, he, hl, u, List.mem_cons_self u rest, rfl⟩
    · obtain ⟨ho, he, hl, u', hu', hid⟩ := h
      exact Or.inr ⟨ho, he, hl, u', List.mem_cons_of_mem _ hu', hid⟩

theorem selectFold_ids_in_map (included : Option (List ServiceID)) (locked excluded : ServiceIDSet)
    (l : List ServiceUpdate) (st0 : SelectPhaseA) (s : ServiceID)
    (h0 : s ∈ st0.ids → (mapLookup st0.updateMap s).isSome)
    (hs : s ∈ (l.foldl (selectStep included locked excluded) st0).ids) :
    (mapLookup (l.foldl (selectStep included locked excluded) st0).updateMap s).isSome := by
  induction l generalizing st0 with
  | nil => exact h0 hs
  | cons u rest ih =>
    refine ih (selectStep included locked excluded st0 u) ?_ hs
    intro hmem
    rcases (selectStep_mem_ids included locked excluded st0 u s).1 hmem with h | h
    · rw [selectStep_map_lookup]
      split
      · rfl
      · exact h0 h
    · rw [selectStep_map_lookup, if_pos h]
      rfl

theorem selectFold_map_entries (included : Option (List ServiceID)) (locked excluded : ServiceIDSet)
    (l : List ServiceUpdate) (st0 : SelectPhaseA)
    (h0 : ∀ k u, mapLookup st0.updateMap k = some u → u.serviceID = k ∧
      sidsetContains excluded k = false ∧ sidsetContains locked k = false)
    (k : ServiceID) (u : ServiceUpdate)
    (h : mapLookup (l.foldl (selectStep included locked excluded) st0).updateMap k = some u) :
    u.serviceID = k ∧ sidsetContains excluded k = false ∧ sidsetContains locked k = false := by
  induction l generalizing st0 with
  | nil => exact h0 k u h
  | cons v rest ih =>
    refine ih (selectStep included locked excluded st0 v) ?_ h
    intro k' u' h'
    rw [selectStep_map_lookup] at h'
    by_cases hc : k' = v.serviceID ∧ onlyOkB included v.serviceID = true ∧
        sidsetContains excluded v.serviceID = false ∧
        sidsetContains locked v.serviceID = false
    · rw [if_pos hc] at h'
      cases h'
      exact ⟨hc.1.symm, hc.1 ▸ hc.2.2.1, hc.1 ▸ hc.2.2.2⟩
    · rw [if_neg hc] at h'
      exact h0 k' u' h'

theorem selectFold_results_isSome (included : Option (List ServiceID))
    (locked excluded : ServiceIDSet) (l : List ServiceUpdate) (st0 : SelectPhaseA)
    (s : ServiceID) :
    (rrLookup (l.foldl (selectStep included locked excluded) st0).results s).isSome ↔
      (rrLookup st0.results s).isSome ∨
        (onlyOkB included s = true ∧ ∃ u ∈ l, u.serviceID = s) := by
  induction l generalizing st0 with
  | nil => simp
  | cons u rest ih =>
    rw [List.foldl_cons, ih, selectStep_results_isSome]
    constructor
    · rintro ((h | ⟨heq, ho⟩) | ⟨ho, u', hu', hid⟩)
      · exact Or.inl h
      · exact Or.inr ⟨heq ▸ ho, u, List.mem_cons_self u rest, heq.symm⟩
      · exact Or.inr ⟨ho, u', List.mem_cons_of_mem _ hu', hid⟩
    · rintro (h | ⟨ho, u', hu', hid⟩)
      · exact Or.inl (Or.inl h)
      · rcases List.mem_cons.1 hu' with h1 | h1
        · subst h1
          exact Or.inl (Or.inr ⟨hid.symm, hid ▸ ho⟩)
        · exact Or.inr ⟨ho, u', h1, hid⟩

theorem selectFold_map_in_results (included : Option (List ServiceID))
    (locked excluded : ServiceIDSet) (l : List ServiceUpdate) (st0 : SelectPhaseA)
    (s : ServiceID)
    (h0 : (mapLookup st0.updateMap s).isSome → (rrLookup st0.results s).isSome)
    (h : (mapLookup (l.foldl (selectStep included locked excluded) st0).updateMap s).isSome) :
    (rrLookup (l.foldl (selectStep included locked excluded) st0).results s).isSome := by
  induction l generalizing st0 with
  | nil => exact h0 h
  | cons u rest ih =>
    refine ih (selectStep included locked excluded st0 u) ?_ h
    intro h'
    rw [selectStep_map_lookup] at h'
    rw [selectStep_results_isSome]
    by_cases hc : s = u.serviceID ∧ onlyOkB included u.serviceID = true ∧
        sidsetContains excluded u.serviceID = false ∧
        sidsetContains locked u.serviceID = false
    · exact Or.inr ⟨hc.1, hc.2.1⟩
    · rw [if_neg hc] at h'
      exact Or.inl (h0 h')

end Rel

namespace Rel

open Flux

theorem correlate_lookup_untouched (svcs : List Platform.Service)
    (um : List (ServiceID × ServiceUpdate)) (acc upds : List ServiceUpdate)
    (um' : List (ServiceID × ServiceUpdate))
    (h : correlate svcs um acc = some (upds, um')) (s : ServiceID)
    (hmiss : ∀ svc ∈ svcs, svc.id ≠ s) :
    mapLookup um' s = mapLookup um s := by
  induction svcs generalizing um acc with
  | nil =>
    unfold correlate at h
    cases h
    rfl
  | cons svc rest ih =>
    unfold correlate at h
    cases hl : mapLookup um svc.id with
    | none =>
      rw [hl] at h
      cases h
    | some u =>
      rw [hl] at h
      have := ih (mapErase um svc.id) (acc ++ [{ u with service := some svc }]) h
        (fun v hv => hmiss v (List.mem_cons_of_mem _ hv))
      rw [this, mapLookup_erase_ne]
      exact fun hc => hmiss svc (List.mem_cons_self svc rest) (hc ▸ rfl)

theorem correlate_lookup_sub (svcs : List Platform.Service)
    (um : List (ServiceID × ServiceUpdate)) (acc upds : List ServiceUpdate)
    (um' : List (ServiceID × ServiceUpdate))
    (h : correlate svcs um acc = some (upds, um')) (s : ServiceID)
    (u : ServiceUpdate) (hs : mapLookup um' s = some u) :
    mapLookup um s = some u := by
  induction svcs generalizing um acc with
  | nil =>
    unfold correlate at h
    cases h
    exact hs
  | cons svc rest ih =>
    unfold correlate at h
    cases hl : mapLookup um svc.id with
    | none =>
      rw [hl] at h
      cases h
    | some u0 =>
      rw [hl] at h
      exact mapLookup_erase_sub um svc.id s u
        (ih (mapErase um svc.id) (acc ++ [{ u0 with service := some svc }]) h)

theorem correlate_updates_free (excluded locked : ServiceIDSet) (svcs : List Platform.Service)
    (um : List (ServiceID × ServiceUpdate)) (acc upds : List ServiceUpdate)
    (um' : List (ServiceID × ServiceUpdate))
    (h : correlate svcs um acc = some (upds, um'))
    (hum : ∀ k u, mapLookup um k = some u →
      sidsetContains excluded u.serviceID = false ∧ sidsetContains locked u.serviceID = false)
    (hacc : ∀ u ∈ acc, sidsetContains excluded u.serviceID = false ∧
      sidsetContains locked u.serviceID = false) :
    ∀ u ∈ upds, sidsetContains excluded u.serviceID = false ∧
      sidsetContains locked u.serviceID = false := by
  induction svcs generalizing um acc with
  | nil =>
    unfold correlate at h
    cases h
    exact hacc
  | cons svc rest ih =>
    unfold correlate at h
    cases hl : mapLookup um svc.id with
    | none =>
      rw [hl] at h
      cases h
    | some u0 =>
      rw [hl] at h
      refine ih (mapErase um svc.id) (acc ++ [{ u0 with service := some svc }]) h ?_ ?_
      · exact fun k u hk => hum k u (mapLookup_erase_sub um svc.id k u hk)
      · intro u hu
        rcases List.mem_append.1 hu with hu | hu
        · exact hacc u hu
        · have : u = { u0 with service := some svc } := by simpa using hu
          subst this
          exact hum svc.id u0 hl

theorem markLeftover_lookup (included : Option (List ServiceID))
    (um : List (ServiceID × ServiceUpdate)) (res : ReleaseResult) (s : ServiceID)
    (h : (∃ p ∈ um, p.1 = s) ∨ rrLookup res s = some (leftoverResult included)) :
    rrLookup (markLeftover included um res) s = some (leftoverResult included) := by
  induction um generalizing res with
  | nil =>
    rcases h with ⟨p, hp, _⟩ | h
    · cases hp
    · exact h
  | cons p um ih =>
    rw [show markLeftover included (p :: um) res
        = markLeftover included um (rrInsert res p.1 (leftoverResult included)) from rfl]
    refine ih (rrInsert res p.1 (leftoverResult included)) ?_
    rcases h with ⟨q, hq, hqs⟩ | h
    · rcases List.mem_cons.1 hq with h1 | h1
      · subst h1
        subst hqs
        right
        exact mapLookup_insert_self res q.1 (leftoverResult included)
      · exact Or.inl ⟨q, h1, hqs⟩
    · right
      by_cases hs : s = p.1
      · subst hs
        exact mapLookup_insert_self res _ (leftoverResult included)
      · rw [show rrLookup (rrInsert res p.1 (leftoverResult included)) s
            = rrLookup res s from mapLookup_insert_ne res p.1 s _ hs]
        exact h

theorem markLeftover_isSome (included : Option (List ServiceID))
    (um : List (ServiceID × ServiceUpdate)) (res : ReleaseResult) (s : ServiceID) :
    (rrLookup (markLeftover included um res) s).isSome ↔
      (rrLookup res s).isSome ∨ ∃ p ∈ um, p.1 = s := by
  induction um generalizing res with
  | nil => simp [markLeftover]
  | cons p um ih =>
    rw [show markLeftover included (p :: um) res
        = markLeftover included um (rrInsert res p.1 (leftoverResult included)) from rfl]
    rw [ih]
    rw [show ((rrLookup (rrInsert res p.1 (leftoverResult included)) s).isSome ↔
        (rrLookup res s).isSome ∨ s = p.1) from mapLookup_insert_isSome_iff _ _ _ _]
    constructor
    · rintro ((h | h) | ⟨q, hq, hqs⟩)
      · exact Or.inl h
      · exact Or.inr ⟨p, List.mem_cons_self p um, h.symm⟩
      · exact Or.inr ⟨q, List.mem_cons_of_mem _ hq, hqs⟩
    · rintro (h | ⟨q, hq, hqs⟩)
      · exact Or.inl (Or.inl h)
      · rcases List.mem_cons.1 hq with h1 | h1
        · subst h1
          exact Or.inl (Or.inr hqs.symm)
        · exact Or.inr ⟨q, h1, hqs⟩

end Rel

namespace Flux

theorem mapLookup_isSome_iff_mem {α β : Type} [DecidableEq α] (m : List (α × β)) (k : α) :
    (mapLookup m k).isSome ↔ ∃ p ∈ m, p.1 = k := by
  constructor
  · intro h
    unfold mapLookup at h
    cases hf : m.find? (fun p => p.1 = k) with
    | none =>
      rw [hf] at h
      simp at h
    | some p =>
      refine ⟨p, List.mem_of_find?_eq_some hf, ?_⟩
      simpa using List.find?_some hf
  · rintro ⟨p, hp, hpk⟩
    unfold mapLookup
    cases hf : m.find? (fun p => p.1 = k) with
    | none =>
      rw [List.find?_eq_none] at hf
      exact absurd hpk (by simpa using hf p hp)
    | some q => rfl

end Flux

/-- C4: in a completed `SelectServices` run, every candidate that was
marked pending but is not among the services the cluster returned ends up
with status skipped when an explicit include list was given and ignored
otherwise, in both cases with error "not in running system". -/
theorem C4_not_in_running_system (defined : List Rel.ServiceUpdate)
    (svcs : List Platform.Service) (included : Option (List Flux.ServiceID))
    (locked excluded : Flux.ServiceIDSet) (results0 : Flux.ReleaseResult)
    (updates : List Rel.ServiceUpdate) (results : Flux.ReleaseResult) (s : Flux.ServiceID)
    (hrun : Rel.SelectServices (.ok defined) (fun _ => .ok svcs) included locked excluded
        results0 = some (.ok (updates, results)))
    (hcand : s ∈ (Rel.selectPhaseA included locked excluded defined results0).ids)
    (hmiss : ∀ svc ∈ svcs, svc.id ≠ s) :
    Flux.rrLookup results s = some
      { status := if included.isSome then Flux.ReleaseStatus.skipped
          else Flux.ReleaseStatus.ignored
        error := "not in running system" } := by
  have hleft : some (Rel.leftoverResult included)
      = some ({ status := (if included.isSome then Flux.ReleaseStatus.skipped else Flux.ReleaseStatus.ignored), error := "not in running system" } : Flux.ServiceResult) := by
    cases included <;> rfl
  rw [← hleft]
  have hrun' : (match Rel.correlate svcs
      (Rel.selectPhaseA included locked excluded defined results0).updateMap [] with
    | none => (none : Option (Except String (List Rel.ServiceUpdate × Flux.ReleaseResult)))
    | some (upds, leftover) =>
        some (Except.ok (upds, Rel.markLeftover included leftover
          (Rel.selectPhaseA included locked excluded defined results0).results)))
      = some (.ok (updates, results)) := hrun
  cases hc : Rel.correlate svcs
      (Rel.selectPhaseA included locked excluded defined results0).updateMap [] with
  | none =>
    rw [hc] at hrun'
    cases hrun'
  | some pr =>
    obtain ⟨upds, um'⟩ := pr
    rw [hc] at hrun'
    simp only [Option.some.injEq, Except.ok.injEq, Prod.mk.injEq] at hrun'
    obtain ⟨-, hres⟩ := hrun'
    subst hres
    have h1 : (Flux.mapLookup
        (Rel.selectPhaseA included locked excluded defined results0).updateMap s).isSome := by
      refine Rel.selectFold_ids_in_map included locked excluded defined _ s ?_ hcand
      intro h
      cases h
    have h2 : Flux.mapLookup um' s
        = Flux.mapLookup
            (Rel.selectPhaseA included locked excluded defined results0).updateMap s :=
      Rel.correlate_lookup_untouched svcs _ [] upds um' hc s hmiss
    have h3 : ∃ p ∈ um', p.1 = s := by
      rw [← Flux.mapLookup_isSome_iff_mem um' s, h2]
      exact h1
    exact Rel.markLeftover_lookup included um' _ s (Or.inl h3)

/-- The single defined and explicitly included service of the C4 witness. -/
def c4id : Flux.ServiceID := { nspace := "a", name := "x" }

/-- The defined working copy of the C4 witness. -/
def c4defined : List Rel.ServiceUpdate :=
  [{ serviceID := c4id, manifestPath := "p", manifestBytes := "b" }]

/-- The results of the C4 witness run. -/
def c4results : Flux.ReleaseResult :=
  [(c4id, { status := Flux.ReleaseStatus.skipped, error := "not in running system" })]

/-- C4 witness: an explicitly requested service that the cluster does not
return ends up skipped with "not in running system". -/
theorem C4_not_in_running_system_witness :
    (Rel.SelectServices (.ok c4defined) (fun _ => .ok []) (some [c4id]) [] [] []
        = some (.ok ([], c4results)) ∧
      c4id ∈ (Rel.selectPhaseA (some [c4id]) [] [] c4defined []).ids) ∧
    Flux.rrLookup c4results c4id
      = some { status := Flux.ReleaseStatus.skipped, error := "not in running system" } := by
  refine ⟨⟨rfl, by decide⟩, ?_⟩
  exact C4_not_in_running_system c4defined [] (some [c4id]) [] [] [] [] c4results c4id rfl
    (by decide) (by decide)

/-- The excluded-but-defined service of the C5 counterexample. -/
def c5idy : Flux.ServiceID := { nspace := "a", name := "y" }

/-- The defined working copy of the C5 counterexample. -/
def c5defined : List Rel.ServiceUpdate :=
  [{ serviceID := c5idy, manifestPath := "p", manifestBytes := "b" }]

/-- The results of the C5 counterexample run. -/
def c5results : Flux.ReleaseResult :=
  [(c5idy, { status := Flux.ReleaseStatus.skipped, error := "excluded" })]

/-- C5 counterexample: with a/y defined and excluded, selection returns no
updateable service yet records a result keyed a/y — so the key set of the
`ReleaseResult` neither equals the selected-service set nor is disjoint
from the excluded set. -/
theorem C5_counterexample :
    Rel.SelectServices (.ok c5defined) (fun _ => .ok []) none [] [c5idy] []
      = some (.ok ([], c5results)) ∧
    ¬ (Flux.rrKeys c5results = ([] : List Rel.ServiceUpdate).map (fun u => u.serviceID) ∧
       ∀ id ∈ Flux.rrKeys c5results,
         id ∉ ([c5idy] : Flux.ServiceIDSet) ∧ id ∉ ([] : Flux.ServiceIDSet)) := by
  refine ⟨rfl, ?_⟩
  decide

/-- C5 (amended): for a selection started with an empty results map, the
key set of the returned `ReleaseResult` is exactly the set of defined
services passing the include filter — the excluded and locked ones
included, recorded as skipped — while the set of services actually
selected for update is disjoint from the excluded and locked sets. -/
theorem C5_release_result_keys (defined : List Rel.ServiceUpdate)
    (svcs : List Platform.Service) (included : Option (List Flux.ServiceID))
    (locked excluded : Flux.ServiceIDSet)
    (updates : List Rel.ServiceUpdate) (results : Flux.ReleaseResult)
    (hrun : Rel.SelectServices (.ok defined) (fun _ => .ok svcs) included locked excluded []
        = some (.ok (updates, results))) :
    (∀ s : Flux.ServiceID, (Flux.rrLookup results s).isSome ↔
      (Rel.onlyOkB included s = true ∧ ∃ u ∈ defined, u.serviceID = s)) ∧
    (∀ u ∈ updates, Flux.sidsetContains excluded u.serviceID = false ∧
      Flux.sidsetContains locked u.serviceID = false) := by
  have hrun' : (match Rel.correlate svcs
      (Rel.selectPhaseA included locked excluded defined []).updateMap [] with
    | none => (none : Option (Except String (List Rel.ServiceUpdate × Flux.ReleaseResult)))
    | some (upds, leftover) =>
        some (Except.ok (upds, Rel.markLeftover included leftover
          (Rel.selectPhaseA included locked excluded defined []).results)))
      = some (.ok (updates, results)) := hrun
  cases hc : Rel.correlate svcs
      (Rel.selectPhaseA included locked excluded defined []).updateMap [] with
  | none =>
    rw [hc] at hrun'
    cases hrun'
  | some pr =>
    obtain ⟨upds, um'⟩ := pr
    rw [hc] at hrun'
    simp only [Option.some.injEq, Except.ok.injEq, Prod.mk.injEq] at hrun'
    obtain ⟨hupd, hres⟩ := hrun'
    subst hres
    subst hupd
    constructor
    · intro s
      rw [Rel.markLeftover_isSome]
      have hmap_res : (Flux.mapLookup
            (Rel.selectPhaseA included locked excluded defined []).updateMap s).isSome →
          (Flux.rrLookup (Rel.selectPhaseA included locked excluded defined []).results s).isSome := by
        intro h
        refine Rel.selectFold_map_in_results included locked excluded defined _ s ?_ h
        intro h'
        simp [Flux.mapLookup] at h'
      have hum' : (∃ p ∈ um', p.1 = s) →
          (Flux.rrLookup (Rel.selectPhaseA included locked excluded defined []).results s).isSome := by
        intro hmem
        rw [← Flux.mapLookup_isSome_iff_mem um' s] at hmem
        obtain ⟨u, hu⟩ := Option.isSome_iff_exists.1 hmem
        have := Rel.correlate_lookup_sub svcs _ [] upds um' hc s u hu
        exact hmap_res (this ▸ rfl)
      have hkeys := Rel.selectFold_results_isSome included locked excluded defined
        { updateMap := [], ids := [], results := [] } s
      constructor
      · rintro (h | h)
        · have := hkeys.1 h
          rcases this with h' | h'
          · simp [Flux.rrLookup, Flux.mapLookup] at h'
          · obtain ⟨ho, u, hu, hid⟩ := h'
            exact ⟨ho, u, hu, hid⟩
        · have := hkeys.1 (hum' h)
          rcases this with h' | h'
          · simp [Flux.rrLookup, Flux.mapLookup] at h'
          · obtain ⟨ho, u, hu, hid⟩ := h'
            exact ⟨ho, u, hu, hid⟩
      · rintro ⟨ho, u, hu, hid⟩
        exact Or.inl (hkeys.2 (Or.inr ⟨ho, u, hu, hid⟩))
    · refine Rel.correlate_updates_free excluded locked svcs _ [] upds um' hc ?_ ?_
      · intro k u hk
        have := Rel.selectFold_map_entries included locked excluded defined
          { updateMap := [], ids := [], results := [] } ?_ k u hk
        · exact ⟨this.1 ▸ this.2.1, this.1 ▸ this.2.2⟩
        · intro k' u' h'
          simp [Flux.mapLookup] at h'
      · intro u hu
        cases hu

/-- The defined-and-running service of the C5 witness. -/
def c5idx : Flux.ServiceID := { nspace := "a", name := "x" }

/-- The running service observed by the cluster in the C5 witness. -/
def c5svc : Platform.Service := { id := c5idx }

/-- The defined working copy of the C5 witness: one updateable service and
one excluded service. -/
def c5defined2 : List Rel.ServiceUpdate :=
  [{ serviceID := c5idx, manifestPath := "px", manifestBytes := "bx" },
   { serviceID := c5idy, manifestPath := "py", manifestBytes := "by" }]

/-- The selected updates of the C5 witness run. -/
def c5updates2 : List Rel.ServiceUpdate :=
  [{ serviceID := c5idx, manifestPath := "px", manifestBytes := "bx", service := some c5svc }]

/-- The results of the C5 witness run. -/
def c5results2 : Flux.ReleaseResult :=
  [(c5idx, { status := Flux.ReleaseStatus.pending }),
   (c5idy, { status := Flux.ReleaseStatus.skipped, error := "excluded" })]

/-- C5 witness: on the concrete run both the candidate and the excluded
service appear among the result keys, and the selected updates avoid the
excluded and locked sets. -/
theorem C5_release_result_keys_witness :
    Rel.SelectServices (.ok c5defined2) (fun _ => .ok [c5svc]) none [] [c5idy] []
      = some (.ok (c5updates2, c5results2)) ∧
    ((Flux.rrLookup c5results2 c5idy).isSome ∧ (Flux.rrLookup c5results2 c5idx).isSome) ∧
    (∀ u ∈ c5updates2, Flux.sidsetContains [c5idy] u.serviceID = false ∧
      Flux.sidsetContains [] u.serviceID = false) := by
  have h := C5_release_result_keys c5defined2 [c5svc] none [] [c5idy] c5updates2 c5results2 rfl
  refine ⟨rfl, ⟨?_, ?_⟩, h.2⟩
  · exact (h.1 c5idy).2 ⟨rfl,
      ⟨{ serviceID := c5idy, manifestPath := "py", manifestBytes := "by" }, by decide, rfl⟩⟩
  · exact (h.1 c5idx).2 ⟨rfl,
      ⟨{ serviceID := c5idx, manifestPath := "px", manifestBytes := "bx" }, by decide, rfl⟩⟩

namespace Kube

/-- The ServiceID denoted by a service object (its own namespace and
name), as produced by `flux.MakeServiceID` in `makeService`. -/
def svcKey (v : V1Service) : Flux.ServiceID :=
  { nspace := v.metadata.nspace, name := v.metadata.name }

theorem makeService_id (ns : String) (svc : V1Service) (cs : List PodController) :
    (makeService ns svc cs).id = { nspace := ns, name := svc.metadata.name } := by
  unfold makeService
  cases matchController svc cs <;> rfl

theorem mem_AllServices (st : ClusterState) (nsArg : String) (s : Platform.Service)
    (h : s ∈ AllServices st nsArg) :
    ∃ ns svc, svc ∈ st.services ∧ svc.metadata.nspace = ns ∧
      isAddon svc.metadata = false ∧
      s = makeService ns svc (podControllersInNamespace st ns) := by
  unfold AllServices at h
  rw [List.mem_flatMap] at h
  obtain ⟨ns, hns, hmem⟩ := h
  rw [List.mem_filterMap] at hmem
  obtain ⟨svc, hsvc, heq⟩ := hmem
  by_cases ha : isAddon svc.metadata
  · rw [if_pos ha] at heq
    cases heq
  · rw [if_neg ha] at heq
    cases heq
    have hin := List.mem_filter.1 hsvc
    refine ⟨ns, svc, hin.1, ?_, by simpa using ha, rfl⟩
    simpa using hin.2

theorem getService_props (st : ClusterState) (ns name : String) (svc : V1Service)
    (h : getService st ns name = some svc) :
    svc ∈ st.services ∧ svc.metadata.nspace = ns ∧ svc.metadata.name = name := by
  unfold getService at h
  have hmem : svc ∈ st.services.filter
      (fun s => s.metadata.nspace == ns && s.metadata.name == name) :=
    List.mem_of_mem_head? (by rw [h]; exact rfl)
  have hp := List.mem_filter.1 hmem
  refine ⟨hp.1, ?_, ?_⟩
  · have := hp.2
    simp only [Bool.and_eq_true, beq_iff_eq] at this
    exact this.1
  · have := hp.2
    simp only [Bool.and_eq_true, beq_iff_eq] at this
    exact this.2

theorem mem_SomeServices (st : ClusterState) (ids : List Flux.ServiceID) (s : Platform.Service)
    (h : s ∈ SomeServices st ids) :
    ∃ ns svc, svc ∈ st.services ∧ svc.metadata.nspace = ns ∧
      isAddon svc.metadata = false ∧
      s = makeService ns svc (podControllersInNamespace st ns) := by
  unfold SomeServices at h
  rw [List.mem_flatMap] at h
  obtain ⟨p, hp, hmem⟩ := h
  rw [List.mem_filterMap] at hmem
  obtain ⟨name, hname, heq⟩ := hmem
  cases hget : getService st p.1 name with
  | none =>
    rw [hget] at heq
    cases heq
  | some svc =>
    rw [hget] at heq
    dsimp only at heq
    by_cases ha : isAddon svc.metadata
    · rw [if_pos ha] at heq
      cases heq
    · rw [if_neg ha] at heq
      cases heq
      obtain ⟨hsvc, hns, -⟩ := getService_props st p.1 name svc hget
      exact ⟨p.1, svc, hsvc, hns, by simpa using ha, rfl⟩

theorem export_entries (st : ClusterState) (e : ExportEntry) (h : e ∈ Export st) :
    (∃ ns, e = ExportEntry.namespaceDoc ns) ∨
    (∃ d, isAddon d.metadata = false ∧ e = ExportEntry.deploymentDoc d) ∨
    (∃ r, isAddon r.metadata = false ∧ e = ExportEntry.rcDoc r) ∨
    (∃ s, isAddon s.metadata = false ∧ e = ExportEntry.serviceDoc s) := by
  unfold Export at h
  rw [List.mem_flatMap] at h
  obtain ⟨ns, hns, hmem⟩ := h
  rcases List.mem_cons.1 hmem with h1 | h1
  · exact Or.inl ⟨ns, h1⟩
  rcases List.mem_append.1 h1 with h2 | h2
  · rcases List.mem_append.1 h2 with h3 | h3
    · rw [List.mem_map] at h3
      obtain ⟨d, hd, heq⟩ := h3
      have := (List.mem_filter.1 hd).2
      exact Or.inr (Or.inl ⟨d, by simpa using this, heq.symm⟩)
    · rw [List.mem_map] at h3
      obtain ⟨r, hr, heq⟩ := h3
      have := (List.mem_filter.1 hr).2
      exact Or.inr (Or.inr (Or.inl ⟨r, by simpa using this, heq.symm⟩))
  · rw [List.mem_map] at h2
    obtain ⟨sv, hsv, heq⟩ := h2
    have := (List.mem_filter.1 hsv).2
    exact Or.inr (Or.inr (Or.inr ⟨sv, by simpa using this, heq.symm⟩))

end Kube

/-- The kube-system addon service of the C2 scenario (bears the
cluster-service label). -/
def c2svc : Kube.V1Service :=
  { metadata :=
      { name := "kube-dns"
        nspace := "kube-system"
        labels := [("kubernetes.io/cluster-service", "true")] } }

/-- The object the manifest bytes of the addon parse to (an `apiObject`
carries no labels, so the sync path cannot even see the addon labels). -/
def c2obj : Kube.ApiObject :=
  { bytes := "addon.yaml"
    version := "v1"
    kind := "Service"
    name := "kube-dns"
    nspace := "kube-system" }

/-- The YAML parse of the C2 scenario. -/
def c2parse : String → Except String Kube.ApiObject :=
  fun b => if b = "addon.yaml" then .ok c2obj else .error "unknown manifest"

/-- The sync action carrying the addon's manifest. -/
def c2action : Kube.SyncAction :=
  { resourceID := "kube-system/kube-dns", apply := "addon.yaml" }

/-- C2 counterexample: the manifest of a kube-system resource bearing the
cluster-service addon label IS applied by `Sync` — the sync loop performs
no addon check — refuting the claim's conjunct that such resources are
excluded from the apply/delete actions executed by Sync. -/
theorem C2_counterexample :
    Kube.isAddon c2svc.metadata = true ∧
    Kube.syncTrace c2parse (fun _ => none) (fun _ => none) [c2action]
      = [Kube.SyncEvent.applyCall c2obj] ∧
    Kube.syncTrace c2parse (fun _ => none) (fun _ => none) [c2action] ≠ [] := by
  refine ⟨by decide, by decide, by decide⟩

/-- C2 (amended): a kube-system resource bearing one of the addon labels
is invisible to the queries — absent from `AllServices` and `SomeServices`
(given that service ids are unique in the cluster) and absent from
`Export`'s bundle; `Sync`, by contrast, performs no addon filtering (see
the counterexample). -/
theorem C2_addon_filtering (st : Kube.ClusterState)
    (huniq : (st.services.map Kube.svcKey).Nodup)
    (r : Kube.V1Service) (hr : r ∈ st.services) (har : Kube.isAddon r.metadata = true)
    (d : Kube.Deployment) (_hd : d ∈ st.deployments) (had : Kube.isAddon d.metadata = true)
    (c : Kube.ReplicationController) (_hc : c ∈ st.rcs) (hac : Kube.isAddon c.metadata = true) :
    (∀ nsArg : String, ∀ s ∈ Kube.AllServices st nsArg, s.id ≠ Kube.svcKey r) ∧
    (∀ ids : List Flux.ServiceID, ∀ s ∈ Kube.SomeServices st ids, s.id ≠ Kube.svcKey r) ∧
    Kube.ExportEntry.serviceDoc r ∉ Kube.Export st ∧
    Kube.ExportEntry.deploymentDoc d ∉ Kube.Export st ∧
    Kube.ExportEntry.rcDoc c ∉ Kube.Export st := by
  have key : ∀ (ns : String) (svc : Kube.V1Service), svc ∈ st.services →
      svc.metadata.nspace = ns → Kube.isAddon svc.metadata = false →
      (Kube.makeService ns svc (Kube.podControllersInNamespace st ns)).id ≠ Kube.svcKey r := by
    intro ns svc hsvc hns hna heq
    rw [Kube.makeService_id] at heq
    have hkeys : Kube.svcKey svc = Kube.svcKey r := by
      rw [← heq]
      unfold Kube.svcKey
      rw [hns]
    have : svc = r := List.inj_on_of_nodup_map huniq hsvc hr hkeys
    subst this
    rw [hna] at har
    cases har
  refine ⟨?_, ?_, ?_, ?_, ?_⟩
  · intro nsArg s hs
    obtain ⟨ns, svc, hsvc, hns, hna, hmk⟩ := Kube.mem_AllServices st nsArg s hs
    rw [hmk]
    exact key ns svc hsvc hns hna
  · intro ids s hs
    obtain ⟨ns, svc, hsvc, hns, hna, hmk⟩ := Kube.mem_SomeServices st ids s hs
    rw [hmk]
    exact key ns svc hsvc hns hna
  · intro h
    rcases Kube.export_entries st _ h with ⟨ns, he⟩ | ⟨d', hd', he⟩ | ⟨r', hr', he⟩ | ⟨sv, hsv, he⟩
    · cases he
    · cases he
    · cases he
    · cases he
      rw [hsv] at har
      cases har
  · intro h
    rcases Kube.export_entries st _ h with ⟨ns, he⟩ | ⟨d', hd', he⟩ | ⟨r', hr', he⟩ | ⟨sv, hsv, he⟩
    · cases he
    · cases he
      rw [hd'] at had
      cases had
    · cases he
    · cases he
  · intro h
    rcases Kube.export_entries st _ h with ⟨ns, he⟩ | ⟨d', hd', he⟩ | ⟨r', hr', he⟩ | ⟨sv, hsv, he⟩
    · cases he
    · cases he
    · cases he
      rw [hr'] at hac
      cases hac
    · cases he

/-- The kube-system addon deployment of the C2 witness. -/
def c2dep : Kube.Deployment :=
  { metadata :=
      { name := "dns-dep"
        nspace := "kube-system"
        labels := [("addonmanager.kubernetes.io/mode", "Reconcile")] } }

/-- The kube-system addon replication controller of the C2 witness. -/
def c2rc : Kube.ReplicationController :=
  { metadata :=
      { name := "dns-rc"
        nspace := "kube-system"
        labels := [("addonmanager.kubernetes.io/mode", "EnsureExists")] } }

/-- A concrete cluster holding one ordinary service and three addons. -/
def c2state : Kube.ClusterState :=
  { namespaces := ["default", "kube-system"]
    services := [{ metadata := { name := "app", nspace := "default" } }, c2svc]
    deployments := [c2dep]
    rcs := [c2rc] }

/-- C2 witness: in the concrete cluster the addon service is absent from
`AllServices` and the addon resources are absent from the export bundle. -/
theorem C2_addon_filtering_witness :
    ((c2state.services.map Kube.svcKey).Nodup ∧ Kube.isAddon c2svc.metadata = true ∧
      Kube.isAddon c2dep.metadata = true ∧ Kube.isAddon c2rc.metadata = true) ∧
    (∀ s ∈ Kube.AllServices c2state "", s.id ≠ Kube.svcKey c2svc) ∧
    Kube.ExportEntry.serviceDoc c2svc ∉ Kube.Export c2state ∧
    Kube.ExportEntry.deploymentDoc c2dep ∉ Kube.Export c2state ∧
    Kube.ExportEntry.rcDoc c2rc ∉ Kube.Export c2state := by
  have h := C2_addon_filtering c2state (by decide) c2svc (by decide) (by decide)
    c2dep (by decide) (by decide) c2rc (by decide) (by decide)
  exact ⟨⟨by decide, by decide, by decide, by decide⟩, h.1 "", h.2.2.1, h.2.2.2.1, h.2.2.2.2⟩
